import Mathlib

/-!
Verification of the stage-orchestration core of `migrate_7.py`
(cloudlinux/rhel2centos).

The script is an in-place RHEL 7 to CentOS 7 migration driver.  Its core is
a checkpointed, resumable pipeline: a persisted status document (a flat
JSON mapping from stage name to a completion boolean), a guard/body/mark
pattern in every stage function, three-way classification of external
command outcomes (success, expected absence, hard failure with `exit(1)`),
and a fixed stage order in `main` branching on two environment probes.

This file embeds the script shallowly:

* the status document is an association list wrapped in `Option`
  (`none` models an absent file);
* the host environment is a record `Env` of probe answers and
  success/failure outcomes for every external command the script runs;
* each Python stage function becomes a Lean function
  `Env → RState → StepResult`, where `RState` carries the status document
  and a trace of observable events (stage-body entries, the OS-identity
  probe, and mutating external commands), and `StepResult` distinguishes
  normal return, `exit(code)`, and an uncaught Python exception (`crash`);
* `main` is the literal sequence of calls of the script's `main`.
-/

namespace Migrate7

/-- A mutating external command invoked by the script (read-only probes
such as `rpm -q` are not actions; they decide control flow only). -/
inductive Action where
  | rpmErase (pkg : String)
  | rmtree (dir : String)
  | yumLocalinstall (url : String)
  | yumUpdate
  | distroSync
  | grubMkconfig (path : String)
  | yumReinstall (pkg : String)
  | efibootmgrAdd
  | grubbySetDefault
  deriving DecidableEq, Repr

/-- Observable events of a run: entering a stage body (the code after a
stage's status guard), probing the OS identity via `platform.dist()`, and
executing a mutating external command. -/
inductive Event where
  | enterStage (name : String)
  | probeOS
  | act (a : Action)
  deriving DecidableEq, Repr

/-- The run state: the persisted status document (`none` when the status
file does not exist) and the trace of events so far. -/
structure RState where
  doc : Option (List (String × Bool))
  trace : List Event
  deriving DecidableEq, Repr

/-- Outcome of a piece of the script: normal return, `exit(code)`, or an
uncaught exception.  The state at the moment of termination is carried. -/
inductive StepResult where
  | ok (s : RState)
  | exit (code : Nat) (s : RState)
  | crash (s : RState)
  deriving DecidableEq, Repr

/-- Sequencing: `exit` and `crash` abort the rest of the run. -/
def StepResult.bind (r : StepResult) (f : RState → StepResult) : StepResult :=
  match r with
  | .ok s => f s
  | .exit c s => .exit c s
  | .crash s => .crash s

/-- The state carried by a result, whatever the outcome. -/
def StepResult.state : StepResult → RState
  | .ok s => s
  | .exit _ s => s
  | .crash s => s

/-- Append one event to the trace. -/
def addEvent (s : RState) (e : Event) : RState :=
  { s with trace := s.trace ++ [e] }

/-- Lookup in the JSON dictionary, `dict.get(stage_name, False)`. -/
def lookupStage : List (String × Bool) → String → Bool
  | [], _ => false
  | (k, v) :: rest, name => if k = name then v else lookupStage rest name

/-- `get_stage_status` (migrate_7.py lines 35-46): `False` when the status
file does not exist, else the value stored under the key (default
`False`). -/
def get_stage_status (doc : Option (List (String × Bool))) (stage_name : String) : Bool :=
  match doc with
  | none => false
  | some d => lookupStage d stage_name

/-- Set a key to `True` in the dictionary (overwriting in place). -/
def setStage : List (String × Bool) → String → List (String × Bool)
  | [], name => [(name, true)]
  | (k, v) :: rest, name =>
    if k = name then (name, true) :: rest else (k, v) :: setStage rest name

/-- `set_successful_stage_status` (lines 49-64): read the whole document
(or start from an empty one), set the key to `True`, write it back. -/
def set_successful_stage_status (doc : Option (List (String × Bool)))
    (stage_name : String) : Option (List (String × Bool)) :=
  some (setStage (doc.getD []) stage_name)

/-- Persist completion of a stage in the run state. -/
def markStage (s : RState) (name : String) : RState :=
  { s with doc := set_successful_stage_status s.doc name }

/-- The host environment as the script can observe it: the answers of all
read-only probes and the success/failure outcome of every external
command.  Functions of `String` give the per-package / per-path outcome. -/
structure Env where
  geteuid : Nat
  osName : String
  osVersion : String
  efi : Bool
  installed : String → Bool
  rpmEraseOk : String → Bool
  dirExists : String → Bool
  yumLocalinstallOk : String → Bool
  yumUpdateOk : Bool
  distroSyncOk : Bool
  grubMkconfigOk : String → Bool
  rpmQaOk : Bool
  rpmQa : List (String × String × String)
  defaultKernelOk : Bool
  defaultKernelPkg : String
  defaultKernelVendor : String
  yumReinstallOk : String → Bool
  efibootmgrOk : Bool
  grubbyInfoDefaultOk : Bool
  grubbySetDefaultOk : Bool

def SUPPORTED_MAJOR_VERSION_OS : Nat := 7

def SUPPORTED_NAME_OS : String := "redhat"

/-- Python `int(c)` on a one-character string: the digit value, or a
`ValueError` (modelled as `none`) when the character is not a digit. -/
def int_of_char (c : Char) : Option Nat :=
  if c.isDigit then some (c.toNat - 48) else none

/-- `get_os_version_and_name` (lines 67-78): returns `(0, 0, '')` when the
distribution name is empty, else `int(os_version[0])` as the major and
`int(os_version[2])` as the minor version.  `none` models an uncaught
`IndexError`/`ValueError`. -/
def get_os_version_and_name (os_name : String) (os_version : String) :
    Option (Nat × Nat × String) :=
  if os_name = "" then some (0, 0, "")
  else
    match os_version.data[0]?, os_version.data[2]? with
    | some c0, some c2 =>
      match int_of_char c0, int_of_char c2 with
      | some major_version, some minor_version => some (major_version, minor_version, os_name)
      | _, _ => none
    | _, _ => none

/-- `is_conversion_completed` (lines 81-90): exit 0 when the overall
`completed` key is set. -/
def is_conversion_completed (s : RState) : StepResult :=
  if get_stage_status s.doc "completed" then .exit 0 s else .ok s

/-- `is_run_under_root` (lines 93-104): exit 0 when the effective UID is
not zero. -/
def is_run_under_root (env : Env) (s : RState) : StepResult :=
  if env.geteuid ≠ 0 then .exit 0 s else .ok s

/-- `is_efi_system` (lines 107-114): `/sys/firmware/efi` exists. -/
def is_efi_system (env : Env) : Bool := env.efi

/-- `is_katello_satelite` (lines 117-140): `True` only when BOTH
`python-qpid-proton` and `python2-qpid-proton` are installed; each failing
`rpm -q` returns `False` immediately. -/
def is_katello_satelite (env : Env) : Bool :=
  env.installed "python-qpid-proton" && env.installed "python2-qpid-proton"

/-- The shared removal loop of `remove_katello_satellite_packages` and
`remove_redhat_packages`: for each package, `rpm -q` (absence is an
expected negative: warn and continue), then `rpm -e --nodeps` (failure is
fatal: `exit(1)`). -/
def erase_pkgs_loop (env : Env) : List String → RState → StepResult
  | [], s => .ok s
  | pkg :: rest, s =>
    if env.installed pkg then
      let s1 := addEvent s (.act (.rpmErase pkg))
      if env.rpmEraseOk pkg then erase_pkgs_loop env rest s1
      else .exit 1 s1
    else erase_pkgs_loop env rest s

def katello_removed_pkgs : List String := ["python-qpid-proton", "katello-agent"]

/-- `remove_katello_satellite_packages` (lines 143-189). -/
def remove_katello_satellite_packages (env : Env) (s : RState) : StepResult :=
  if get_stage_status s.doc "remove_katello_satellite_packages" then .ok s
  else
    match erase_pkgs_loop env katello_removed_pkgs
        (addEvent s (.enterStage "remove_katello_satellite_packages")) with
    | .ok s1 => .ok (markStage s1 "remove_katello_satellite_packages")
    | r => r

def redhat_removed_pkgs : List String :=
  ["redhat-release-eula", "redhat-release-server", "redhat-logos"]

/-- `remove_redhat_packages` (lines 192-239). -/
def remove_redhat_packages (env : Env) (s : RState) : StepResult :=
  if get_stage_status s.doc "remove_redhat_packages" then .ok s
  else
    match erase_pkgs_loop env redhat_removed_pkgs
        (addEvent s (.enterStage "remove_redhat_packages")) with
    | .ok s1 => .ok (markStage s1 "remove_redhat_packages")
    | r => r

def not_needed_dirs : List String :=
  ["/usr/share/redhat-release", "/usr/share/doc/redhat-release"]

/-- The directory loop of `remove_not_needed_dirs`: `shutil.rmtree` each
directory that exists and is not a symlink; absence is only logged. -/
def remove_dirs_loop (env : Env) : List String → RState → RState
  | [], s => s
  | d :: rest, s =>
    if env.dirExists d then remove_dirs_loop env rest (addEvent s (.act (.rmtree d)))
    else remove_dirs_loop env rest s

/-- `remove_not_needed_dirs` (lines 242-266). -/
def remove_not_needed_dirs (env : Env) (s : RState) : StepResult :=
  if get_stage_status s.doc "remove_not_needed_dirs" then .ok s
  else
    .ok (markStage
      (remove_dirs_loop env not_needed_dirs
        (addEvent s (.enterStage "remove_not_needed_dirs")))
      "remove_not_needed_dirs")

def centos_installed_pkgs : List (String × String) :=
  [("centos-release",
    "http://mirror.centos.org/centos/7/os/x86_64/Packages/centos-release-7-9.2009.0.el7.centos.x86_64.rpm"),
   ("centos-logos",
    "http://mirror.centos.org/centos/7/os/x86_64/Packages/centos-logos-70.0.6-3.el7.centos.noarch.rpm")]

/-- The install loop of `install_centos_packages`: `yum localinstall` each
URL; failure is fatal. -/
def install_pkgs_loop (env : Env) : List (String × String) → RState → StepResult
  | [], s => .ok s
  | (_, url) :: rest, s =>
    let s1 := addEvent s (.act (.yumLocalinstall url))
    if env.yumLocalinstallOk url then install_pkgs_loop env rest s1
    else .exit 1 s1

/-- `install_centos_packages` (lines 269-309). -/
def install_centos_packages (env : Env) (s : RState) : StepResult :=
  if get_stage_status s.doc "install_centos_packages" then .ok s
  else
    match install_pkgs_loop env centos_installed_pkgs
        (addEvent s (.enterStage "install_centos_packages")) with
    | .ok s1 => .ok (markStage s1 "install_centos_packages")
    | r => r

/-- `update_the_system` (lines 312-332): `yum update -y`, failure fatal. -/
def update_the_system (env : Env) (s : RState) : StepResult :=
  if get_stage_status s.doc "update_the_system" then .ok s
  else
    let s1 := addEvent (addEvent s (.enterStage "update_the_system")) (.act .yumUpdate)
    if env.yumUpdateOk then .ok (markStage s1 "update_the_system")
    else .exit 1 s1

/-- `synchronization_of_distribution` (lines 335-357): `yum distro-sync`. -/
def synchronization_of_distribution (env : Env) (s : RState) : StepResult :=
  if get_stage_status s.doc "synchronization_of_distribution" then .ok s
  else
    let s1 := addEvent (addEvent s (.enterStage "synchronization_of_distribution"))
      (.act .distroSync)
    if env.distroSyncOk then .ok (markStage s1 "synchronization_of_distribution")
    else .exit 1 s1

/-- `recreate_grub_config` (lines 360-388): guarded by the single key
`recreate_grub_config` whatever the config path argument is. -/
def recreate_grub_config (env : Env) (grub_config_path : String) (s : RState) : StepResult :=
  if get_stage_status s.doc "recreate_grub_config" then .ok s
  else
    let s1 := addEvent (addEvent s (.enterStage "recreate_grub_config"))
      (.act (.grubMkconfig grub_config_path))
    if env.grubMkconfigOk grub_config_path then .ok (markStage s1 "recreate_grub_config")
    else .exit 1 s1

def pkg_name_heads : List String := ["shim", "fwupd", "grub2", "kernel-"]

/-- Dictionary insert/overwrite for the package-to-vendor mapping. -/
def setDictKey : List (String × String) → String → String → List (String × String)
  | [], k, v => [(k, v)]
  | (k0, v0) :: rest, k, v =>
    if k0 = k then (k, v) :: rest else (k0, v0) :: setDictKey rest k v

/-- The line loop of `get_pkgs_related_to_secure_boot`: keep packages whose
name starts with one of the fixed heads, vendor lower-cased. -/
def collect_sb_pkgs : List (String × String × String) → List (String × String) →
    List (String × String)
  | [], acc => acc
  | (name, pkg, vendor) :: rest, acc =>
    if pkg_name_heads.any (fun pfx => name.startsWith pfx) then
      collect_sb_pkgs rest (setDictKey acc pkg vendor.toLower)
    else collect_sb_pkgs rest acc

/-- Result of a value-returning helper that can also `exit(1)`. -/
inductive FetchResult where
  | ok (pkgs : List (String × String)) (s : RState)
  | exit (code : Nat) (s : RState)

/-- `get_pkgs_related_to_secure_boot` (lines 391-430): `rpm -qa` failure is
fatal; otherwise the filtered package-to-vendor mapping. -/
def get_pkgs_related_to_secure_boot (env : Env) (s : RState) : FetchResult :=
  if env.rpmQaOk then .ok (collect_sb_pkgs env.rpmQa []) s
  else .exit 1 s

/-- `get_kernel_pkg_name_for_default_boot_record` (lines 433-465). -/
def get_kernel_pkg_name_for_default_boot_record (env : Env) (s : RState) : FetchResult :=
  if env.defaultKernelOk then
    .ok [(env.defaultKernelPkg, env.defaultKernelVendor.toLower)] s
  else .exit 1 s

/-- The reinstall loop of `reinstall_secure_boot_related_packages`: skip
CentOS-vendored packages, `yum reinstall` the rest; failure fatal. -/
def reinstall_pkgs_loop (env : Env) : List (String × String) → RState → StepResult
  | [], s => .ok s
  | (pkg, vendor) :: rest, s =>
    if vendor = "centos" then reinstall_pkgs_loop env rest s
    else
      let s1 := addEvent s (.act (.yumReinstall pkg))
      if env.yumReinstallOk pkg then reinstall_pkgs_loop env rest s1
      else .exit 1 s1

/-- Python `dict.update`. -/
def dict_update (base upd : List (String × String)) : List (String × String) :=
  upd.foldl (fun acc p => setDictKey acc p.1 p.2) base

/-- `reinstall_secure_boot_related_packages` (lines 468-501). -/
def reinstall_secure_boot_related_packages (env : Env) (s : RState) : StepResult :=
  if get_stage_status s.doc "reinstall_secure_boot_related_packages" then .ok s
  else
    let s0 := addEvent s (.enterStage "reinstall_secure_boot_related_packages")
    match get_pkgs_related_to_secure_boot env s0 with
    | .exit c s1 => .exit c s1
    | .ok pkgs s1 =>
      match get_kernel_pkg_name_for_default_boot_record env s1 with
      | .exit c s2 => .exit c s2
      | .ok kpkgs s2 =>
        match reinstall_pkgs_loop env (dict_update pkgs kpkgs) s2 with
        | .ok s3 => .ok (markStage s3 "reinstall_secure_boot_related_packages")
        | r => r

/-- `add_boot_record_by_efibootmgr` (lines 504-530). -/
def add_boot_record_by_efibootmgr (env : Env) (s : RState) : StepResult :=
  if get_stage_status s.doc "add_boot_record_by_efibootmgr" then .ok s
  else
    let s1 := addEvent (addEvent s (.enterStage "add_boot_record_by_efibootmgr"))
      (.act .efibootmgrAdd)
    if env.efibootmgrOk then .ok (markStage s1 "add_boot_record_by_efibootmgr")
    else .exit 1 s1

/-- `check_and_set_default_grub_record` (lines 533-567): `grubby
--info=DEFAULT` success marks the stage at once; its failure is an
expected negative, after which `grubby --set-default` runs (failure
fatal). -/
def check_and_set_default_grub_record (env : Env) (s : RState) : StepResult :=
  if get_stage_status s.doc "check_and_set_default_grub_record" then .ok s
  else
    let s1 := addEvent s (.enterStage "check_and_set_default_grub_record")
    if env.grubbyInfoDefaultOk then .ok (markStage s1 "check_and_set_default_grub_record")
    else
      let s2 := addEvent s1 (.act .grubbySetDefault)
      if env.grubbySetDefaultOk then .ok (markStage s2 "check_and_set_default_grub_record")
      else .exit 1 s2

/-- `check_supported_os` (lines 570-596): itself guarded by the status key
`check_supported_os`; probes the OS identity, exits 0 on a major-version
or name mismatch, and marks the stage on success. -/
def check_supported_os (env : Env) (s : RState) : StepResult :=
  if get_stage_status s.doc "check_supported_os" then .ok s
  else
    let s1 := addEvent (addEvent s (.enterStage "check_supported_os")) .probeOS
    match get_os_version_and_name env.osName env.osVersion with
    | none => .crash s1
    | some (major_version, _minor_version, os_name) =>
      if major_version ≠ SUPPORTED_MAJOR_VERSION_OS then .exit 0 s1
      else if os_name ≠ SUPPORTED_NAME_OS then .exit 0 s1
      else .ok (markStage s1 "check_supported_os")

/-- `main` (lines 599-622), literally: the completion check, the privilege
check, the OS check, then the stage sequence with the katello conditional
and the EFI/legacy branch, then the overall `completed` marker. -/
def main (env : Env) (s : RState) : StepResult :=
  (is_conversion_completed s).bind fun s =>
  (is_run_under_root env s).bind fun s =>
  (check_supported_os env s).bind fun s =>
  (remove_redhat_packages env s).bind fun s =>
  (remove_not_needed_dirs env s).bind fun s =>
  (if is_katello_satelite env then remove_katello_satellite_packages env s else .ok s).bind fun s =>
  (install_centos_packages env s).bind fun s =>
  (update_the_system env s).bind fun s =>
  (synchronization_of_distribution env s).bind fun s =>
  (if is_efi_system env then
      (recreate_grub_config env "/boot/efi/EFI/centos/grub.cfg" s).bind fun s =>
      (reinstall_secure_boot_related_packages env s).bind fun s =>
      add_boot_record_by_efibootmgr env s
    else recreate_grub_config env "/boot/grub2/grub.cfg" s).bind fun s =>
  (check_and_set_default_grub_record env s).bind fun s =>
  .ok (markStage s "completed")

/-! ## The pipeline as a list of guarded stages

`main` runs a fixed sequence of guarded stages, the membership of two of
them decided by the environment probes.  `StageDef` packages, for each
stage, its status key, the set of mutating actions its body may perform
(used to reason about what a run can never do), the events its body is
guaranteed to emit when it runs to success (used to reason about what a
run must do), and the stage function itself. -/

structure StageDef where
  name : String
  acts : Action → Prop
  keyEvents : List Event
  run : Env → RState → StepResult

def checkOsStage : StageDef :=
  { name := "check_supported_os", acts := fun _ => False, keyEvents := [],
    run := check_supported_os }

def rmRedhatStage : StageDef :=
  { name := "remove_redhat_packages",
    acts := fun a => ∃ p ∈ redhat_removed_pkgs, a = .rpmErase p, keyEvents := [],
    run := remove_redhat_packages }

def rmDirsStage : StageDef :=
  { name := "remove_not_needed_dirs",
    acts := fun a => ∃ d ∈ not_needed_dirs, a = .rmtree d, keyEvents := [],
    run := remove_not_needed_dirs }

def katelloStage : StageDef :=
  { name := "remove_katello_satellite_packages",
    acts := fun a => ∃ p ∈ katello_removed_pkgs, a = .rpmErase p, keyEvents := [],
    run := remove_katello_satellite_packages }

def installStage : StageDef :=
  { name := "install_centos_packages",
    acts := fun a => ∃ pr ∈ centos_installed_pkgs, a = .yumLocalinstall pr.2, keyEvents := [],
    run := install_centos_packages }

def updateStage : StageDef :=
  { name := "update_the_system", acts := fun a => a = .yumUpdate, keyEvents := [],
    run := update_the_system }

def syncStage : StageDef :=
  { name := "synchronization_of_distribution", acts := fun a => a = .distroSync,
    keyEvents := [], run := synchronization_of_distribution }

def grubEfiStage : StageDef :=
  { name := "recreate_grub_config",
    acts := fun a => a = .grubMkconfig "/boot/efi/EFI/centos/grub.cfg",
    keyEvents := [.act (.grubMkconfig "/boot/efi/EFI/centos/grub.cfg")],
    run := fun env s => recreate_grub_config env "/boot/efi/EFI/centos/grub.cfg" s }

def grubLegacyStage : StageDef :=
  { name := "recreate_grub_config",
    acts := fun a => a = .grubMkconfig "/boot/grub2/grub.cfg",
    keyEvents := [.act (.grubMkconfig "/boot/grub2/grub.cfg")],
    run := fun env s => recreate_grub_config env "/boot/grub2/grub.cfg" s }

def reinstallStage : StageDef :=
  { name := "reinstall_secure_boot_related_packages",
    acts := fun a => ∃ p, a = .yumReinstall p, keyEvents := [],
    run := reinstall_secure_boot_related_packages }

def efibootStage : StageDef :=
  { name := "add_boot_record_by_efibootmgr", acts := fun a => a = .efibootmgrAdd,
    keyEvents := [], run := add_boot_record_by_efibootmgr }

def defaultGrubStage : StageDef :=
  { name := "check_and_set_default_grub_record", acts := fun a => a = .grubbySetDefault,
    keyEvents := [], run := check_and_set_default_grub_record }

/-- The guarded stages of one run, in the order `main` calls them; the
katello stage and the firmware branch are decided by their probes. -/
def pipeline (env : Env) : List StageDef :=
  [checkOsStage, rmRedhatStage, rmDirsStage]
    ++ (if is_katello_satelite env then [katelloStage] else [])
    ++ [installStage, updateStage, syncStage]
    ++ (if is_efi_system env then [grubEfiStage, reinstallStage, efibootStage]
        else [grubLegacyStage])
    ++ [defaultGrubStage]

/-- Every stage of every pipeline. -/
def allStages : List StageDef :=
  [checkOsStage, rmRedhatStage, rmDirsStage, katelloStage, installStage, updateStage,
   syncStage, grubEfiStage, grubLegacyStage, reinstallStage, efibootStage, defaultGrubStage]

/-- Run a list of stages in order, aborting on `exit`/`crash`. -/
def runStages (env : Env) : List StageDef → RState → StepResult
  | [], s => .ok s
  | st :: rest, s => (st.run env s).bind (runStages env rest)

/-! ## Per-stage structural properties -/

/-- The events a stage may emit: its own body-entry marker, the OS probe,
or one of its declared mutating actions. -/
def EventAllowed (st : StageDef) (e : Event) : Prop :=
  e = .enterStage st.name ∨ e = .probeOS ∨ ∃ a, e = .act a ∧ st.acts a

/-- The unconditional structural contract of a guarded stage: a `true`
status key short-circuits the whole function with the state untouched;
whatever happens, the trace only grows by events of this stage; and the
status of every other key is preserved. -/
structure StageOK (st : StageDef) : Prop where
  skip : ∀ env s, get_stage_status s.doc st.name = true → st.run env s = .ok s
  shape : ∀ env s, ∃ ds, (st.run env s).state.trace = s.trace ++ ds ∧
    ∀ e ∈ ds, EventAllowed st e
  docpres : ∀ env s Y, Y ≠ st.name →
    get_stage_status (st.run env s).state.doc Y = get_stage_status s.doc Y

/-- Every external command of the run succeeds, the caller is root, and
the probed OS identity is the supported one. -/
structure AllOk (env : Env) : Prop where
  root : env.geteuid = 0
  os : ∃ m, get_os_version_and_name env.osName env.osVersion = some (7, m, "redhat")
  erase : ∀ p, env.rpmEraseOk p = true
  localinstall : ∀ u, env.yumLocalinstallOk u = true
  yumUpdate : env.yumUpdateOk = true
  distroSync : env.distroSyncOk = true
  grub : ∀ p, env.grubMkconfigOk p = true
  rpmQa : env.rpmQaOk = true
  kernel : env.defaultKernelOk = true
  reinstall : ∀ p, env.yumReinstallOk p = true
  efiboot : env.efibootmgrOk = true
  setDefault : env.grubbySetDefaultOk = true

/-- The external commands a single stage needs, by its status key. -/
def stageOpsOk (env : Env) : String → Prop
  | "check_supported_os" =>
    ∃ m, get_os_version_and_name env.osName env.osVersion = some (7, m, "redhat")
  | "remove_redhat_packages" => ∀ p, env.rpmEraseOk p = true
  | "remove_katello_satellite_packages" => ∀ p, env.rpmEraseOk p = true
  | "install_centos_packages" => ∀ u, env.yumLocalinstallOk u = true
  | "update_the_system" => env.yumUpdateOk = true
  | "synchronization_of_distribution" => env.distroSyncOk = true
  | "recreate_grub_config" => ∀ p, env.grubMkconfigOk p = true
  | "reinstall_secure_boot_related_packages" =>
    env.rpmQaOk = true ∧ env.defaultKernelOk = true ∧ ∀ p, env.yumReinstallOk p = true
  | "add_boot_record_by_efibootmgr" => env.efibootmgrOk = true
  | "check_and_set_default_grub_record" => env.grubbySetDefaultOk = true
  | _ => True

/-- A hard failure of a mutating command inside the stage's body, by the
stage's status key (stages whose body runs no classified mutating command
have no hard-failure mode: `False`). -/
def opFails (env : Env) : String → Prop
  | "remove_redhat_packages" =>
    ∃ p ∈ redhat_removed_pkgs, env.installed p = true ∧ env.rpmEraseOk p = false
  | "remove_katello_satellite_packages" =>
    ∃ p ∈ katello_removed_pkgs, env.installed p = true ∧ env.rpmEraseOk p = false
  | "install_centos_packages" =>
    ∃ pr ∈ centos_installed_pkgs, env.yumLocalinstallOk pr.2 = false
  | "update_the_system" => env.yumUpdateOk = false
  | "synchronization_of_distribution" => env.distroSyncOk = false
  | "recreate_grub_config" =>
    env.grubMkconfigOk (if is_efi_system env then "/boot/efi/EFI/centos/grub.cfg"
      else "/boot/grub2/grub.cfg") = false
  | "reinstall_secure_boot_related_packages" =>
    env.rpmQaOk = false ∨ (env.rpmQaOk = true ∧ env.defaultKernelOk = false) ∨
    (env.rpmQaOk = true ∧ env.defaultKernelOk = true ∧
      ∃ pv ∈ dict_update (collect_sb_pkgs env.rpmQa [])
        [(env.defaultKernelPkg, env.defaultKernelVendor.toLower)],
        pv.2 ≠ "centos" ∧ env.yumReinstallOk pv.1 = false)
  | "add_boot_record_by_efibootmgr" => env.efibootmgrOk = false
  | "check_and_set_default_grub_record" =>
    env.grubbyInfoDefaultOk = false ∧ env.grubbySetDefaultOk = false
  | _ => False

/-- Did the piece of the script return normally? -/
def StepResult.isOk : StepResult → Bool
  | .ok _ => true
  | _ => false

/-- A legacy-boot, no-katello host on a supported OS where every external
command succeeds. -/
def okEnv : Env :=
  { geteuid := 0, osName := "redhat", osVersion := "7.9", efi := false,
    installed := fun _ => false, rpmEraseOk := fun _ => true, dirExists := fun _ => false,
    yumLocalinstallOk := fun _ => true, yumUpdateOk := true, distroSyncOk := true,
    grubMkconfigOk := fun _ => true, rpmQaOk := true, rpmQa := [],
    defaultKernelOk := true, defaultKernelPkg := "kernel-3.10.0-1160.el7.x86_64",
    defaultKernelVendor := "CentOS", yumReinstallOk := fun _ => true,
    efibootmgrOk := true, grubbyInfoDefaultOk := true, grubbySetDefaultOk := true }

/-- Like `okEnv` but the platform reports an unsupported distribution. -/
def envOsMismatch : Env := { okEnv with osName := "centos" }

/-- Like `okEnv` but `yum update` hard-fails. -/
def envUpdateFails : Env := { okEnv with yumUpdateOk := false }

/-- Like `okEnv` but the platform reports a different distribution and
version. -/
def envFedora : Env := { okEnv with osName := "fedora", osVersion := "8.4" }

/-- No status document, empty trace. -/
def emptyState : RState := { doc := none, trace := [] }

/-- A resumed run: the OS check stage already recorded as completed. -/
def stateOsChecked : RState := { doc := some [("check_supported_os", true)], trace := [] }

/-- A resumed run: the Red Hat package removal already completed. -/
def stateRmRedhatDone : RState :=
  { doc := some [("remove_redhat_packages", true)], trace := [] }

/-- A fully migrated host. -/
def stateCompleted : RState := { doc := some [("completed", true)], trace := [] }

@[simp]
theorem StepResult.ok_bind (s : RState) (f : RState → StepResult) :
    (StepResult.ok s).bind f = f s := rfl

@[simp]
theorem StepResult.exit_bind (c : Nat) (s : RState) (f : RState → StepResult) :
    (StepResult.exit c s).bind f = .exit c s := rfl

@[simp]
theorem StepResult.crash_bind (s : RState) (f : RState → StepResult) :
    (StepResult.crash s).bind f = .crash s := rfl

@[simp]
theorem StepResult.bind_assoc (r : StepResult) (f g : RState → StepResult) :
    (r.bind f).bind g = r.bind fun s => (f s).bind g := by
  cases r <;> rfl

@[simp]
theorem StepResult.state_ok (s : RState) : (StepResult.ok s).state = s := rfl

@[simp]
theorem StepResult.state_exit (c : Nat) (s : RState) :
    (StepResult.exit c s).state = s := rfl

@[simp]
theorem StepResult.state_crash (s : RState) : (StepResult.crash s).state = s := rfl

/-- `main` is exactly the completion check, the privilege check, the run
of the pipeline stages, and the overall completion marker. -/
theorem main_eq_pipeline (env : Env) (s : RState) :
    main env s =
      (is_conversion_completed s).bind fun s1 =>
      (is_run_under_root env s1).bind fun s2 =>
      (runStages env (pipeline env) s2).bind fun s3 =>
      .ok (markStage s3 "completed") := by
  cases hk : is_katello_satelite env <;> cases he : is_efi_system env <;>
    simp [main, pipeline, runStages, hk, he, checkOsStage, rmRedhatStage, rmDirsStage,
      katelloStage, installStage, updateStage, syncStage, grubEfiStage, grubLegacyStage,
      reinstallStage, efibootStage, defaultGrubStage]

/-! ## Status store lemmas -/

theorem lookupStage_setStage_same (d : List (String × Bool)) (n : String) :
    lookupStage (setStage d n) n = true := by
  induction d with
  | nil => simp [setStage, lookupStage]
  | cons p rest ih =>
    by_cases h : p.1 = n
    · simp [setStage, lookupStage, h]
    · simp only [setStage, lookupStage]
      rw [if_neg h, lookupStage, if_neg h]
      exact ih

theorem lookupStage_setStage_ne (d : List (String × Bool)) (n m : String) (h : m ≠ n) :
    lookupStage (setStage d n) m = lookupStage d m := by
  induction d with
  | nil => simp [setStage, lookupStage, Ne.symm h]
  | cons p rest ih =>
    obtain ⟨k, v⟩ := p
    by_cases hp : k = n
    · subst hp
      simp [setStage, lookupStage, Ne.symm h]
    · simp only [setStage, if_neg hp, lookupStage]
      by_cases hm : k = m
      · simp [hm]
      · simp [hm, ih]

@[simp]
theorem get_set_same (doc : Option (List (String × Bool))) (n : String) :
    get_stage_status (set_successful_stage_status doc n) n = true := by
  simp [get_stage_status, set_successful_stage_status, lookupStage_setStage_same]

theorem get_set_ne (doc : Option (List (String × Bool))) (n m : String) (h : m ≠ n) :
    get_stage_status (set_successful_stage_status doc n) m = get_stage_status doc m := by
  cases doc with
  | none =>
    simp [get_stage_status, set_successful_stage_status, setStage, lookupStage, Ne.symm h]
  | some d =>
    simp [get_stage_status, set_successful_stage_status, lookupStage_setStage_ne d n m h]

@[simp]
theorem markStage_trace (s : RState) (n : String) : (markStage s n).trace = s.trace := rfl

@[simp]
theorem markStage_doc (s : RState) (n : String) :
    (markStage s n).doc = set_successful_stage_status s.doc n := rfl

@[simp]
theorem addEvent_trace (s : RState) (e : Event) :
    (addEvent s e).trace = s.trace ++ [e] := rfl

@[simp]
theorem addEvent_doc (s : RState) (e : Event) : (addEvent s e).doc = s.doc := rfl

/-! ### Loop lemmas -/

theorem erase_pkgs_loop_shape (env : Env) (l : List String) (s : RState) :
    ∃ ds, (erase_pkgs_loop env l s).state.trace = s.trace ++ ds ∧
      (∀ e ∈ ds, ∃ p ∈ l, e = Event.act (.rpmErase p)) ∧
      (erase_pkgs_loop env l s).state.doc = s.doc := by
  induction l generalizing s with
  | nil => exact ⟨[], by simp [erase_pkgs_loop], by simp, rfl⟩
  | cons pkg rest ih =>
    by_cases hi : env.installed pkg
    · by_cases he : env.rpmEraseOk pkg
      · have heq : erase_pkgs_loop env (pkg :: rest) s =
            erase_pkgs_loop env rest (addEvent s (.act (.rpmErase pkg))) := by
          simp [erase_pkgs_loop, hi, he]
        obtain ⟨ds, h1, h2, h3⟩ := ih (addEvent s (.act (.rpmErase pkg)))
        refine ⟨Event.act (.rpmErase pkg) :: ds, ?_, ?_, ?_⟩
        · rw [heq, h1]; simp
        · intro e hel
          rcases List.mem_cons.mp hel with h | h
          · exact ⟨pkg, by simp, h⟩
          · obtain ⟨p, hp, hep⟩ := h2 e h
            exact ⟨p, by simp [hp], hep⟩
        · rw [heq, h3]; rfl
      · have heq : erase_pkgs_loop env (pkg :: rest) s =
            .exit 1 (addEvent s (.act (.rpmErase pkg))) := by
          simp [erase_pkgs_loop, hi, he]
        refine ⟨[Event.act (.rpmErase pkg)], ?_, ?_, ?_⟩
        · rw [heq]; simp
        · intro e hel
          simp only [List.mem_singleton] at hel
          exact ⟨pkg, by simp, hel⟩
        · rw [heq]; rfl
    · have heq : erase_pkgs_loop env (pkg :: rest) s = erase_pkgs_loop env rest s := by
        simp [erase_pkgs_loop, hi]
      obtain ⟨ds, h1, h2, h3⟩ := ih s
      refine ⟨ds, by rw [heq]; exact h1, ?_, by rw [heq]; exact h3⟩
      intro e hel
      obtain ⟨p, hp, hep⟩ := h2 e hel
      exact ⟨p, by simp [hp], hep⟩

theorem erase_pkgs_loop_ok (env : Env) (hok : ∀ p, env.rpmEraseOk p = true)
    (l : List String) (s : RState) :
    ∃ s', erase_pkgs_loop env l s = .ok s' := by
  induction l generalizing s with
  | nil => exact ⟨s, rfl⟩
  | cons pkg rest ih =>
    by_cases hi : env.installed pkg
    · obtain ⟨s', h⟩ := ih (addEvent s (.act (.rpmErase pkg)))
      exact ⟨s', by simp [erase_pkgs_loop, hi, hok pkg, h]⟩
    · obtain ⟨s', h⟩ := ih s
      exact ⟨s', by simp [erase_pkgs_loop, hi, h]⟩

theorem erase_pkgs_loop_fail (env : Env) (l : List String) (s : RState)
    (hf : ∃ p ∈ l, env.installed p = true ∧ env.rpmEraseOk p = false) :
    ∃ s', erase_pkgs_loop env l s = .exit 1 s' ∧ s'.doc = s.doc := by
  induction l generalizing s with
  | nil => simp at hf
  | cons pkg rest ih =>
    by_cases hi : env.installed pkg
    · by_cases he : env.rpmEraseOk pkg
      · have hf' : ∃ p ∈ rest, env.installed p = true ∧ env.rpmEraseOk p = false := by
          obtain ⟨p, hp, hpi, hpe⟩ := hf
          rcases List.mem_cons.mp hp with rfl | hp'
          · rw [he] at hpe; cases hpe
          · exact ⟨p, hp', hpi, hpe⟩
        obtain ⟨s', h1, h2⟩ := ih (addEvent s (.act (.rpmErase pkg))) hf'
        exact ⟨s', by simp [erase_pkgs_loop, hi, he, h1], by simp [h2]⟩
      · exact ⟨addEvent s (.act (.rpmErase pkg)), by simp [erase_pkgs_loop, hi, he], by simp⟩
    · have hf' : ∃ p ∈ rest, env.installed p = true ∧ env.rpmEraseOk p = false := by
        obtain ⟨p, hp, hpi, hpe⟩ := hf
        rcases List.mem_cons.mp hp with rfl | hp'
        · rw [hpi] at hi; simp at hi
        · exact ⟨p, hp', hpi, hpe⟩
      obtain ⟨s', h1, h2⟩ := ih s hf'
      exact ⟨s', by simp [erase_pkgs_loop, hi, h1], h2⟩

theorem remove_dirs_loop_shape (env : Env) (l : List String) (s : RState) :
    ∃ ds, (remove_dirs_loop env l s).trace = s.trace ++ ds ∧
      (∀ e ∈ ds, ∃ d ∈ l, e = Event.act (.rmtree d)) ∧
      (remove_dirs_loop env l s).doc = s.doc := by
  induction l generalizing s with
  | nil => exact ⟨[], by simp [remove_dirs_loop], by simp, rfl⟩
  | cons d rest ih =>
    by_cases hd : env.dirExists d
    · have heq : remove_dirs_loop env (d :: rest) s =
          remove_dirs_loop env rest (addEvent s (.act (.rmtree d))) := by
        simp [remove_dirs_loop, hd]
      obtain ⟨ds, h1, h2, h3⟩ := ih (addEvent s (.act (.rmtree d)))
      refine ⟨Event.act (.rmtree d) :: ds, ?_, ?_, ?_⟩
      · rw [heq, h1]; simp
      · intro e hel
        rcases List.mem_cons.mp hel with h | h
        · exact ⟨d, by simp, h⟩
        · obtain ⟨d', hd', hed⟩ := h2 e h
          exact ⟨d', by simp [hd'], hed⟩
      · rw [heq, h3]; rfl
    · have heq : remove_dirs_loop env (d :: rest) s = remove_dirs_loop env rest s := by
        simp [remove_dirs_loop, hd]
      obtain ⟨ds, h1, h2, h3⟩ := ih s
      refine ⟨ds, by rw [heq]; exact h1, ?_, by rw [heq]; exact h3⟩
      intro e hel
      obtain ⟨d', hd', hed⟩ := h2 e hel
      exact ⟨d', by simp [hd'], hed⟩

theorem install_pkgs_loop_shape (env : Env) (l : List (String × String)) (s : RState) :
    ∃ ds, (install_pkgs_loop env l s).state.trace = s.trace ++ ds ∧
      (∀ e ∈ ds, ∃ pr ∈ l, e = Event.act (.yumLocalinstall pr.2)) ∧
      (install_pkgs_loop env l s).state.doc = s.doc := by
  induction l generalizing s with
  | nil => exact ⟨[], by simp [install_pkgs_loop], by simp, rfl⟩
  | cons pr rest ih =>
    obtain ⟨nm, url⟩ := pr
    by_cases hu : env.yumLocalinstallOk url
    · have heq : install_pkgs_loop env ((nm, url) :: rest) s =
          install_pkgs_loop env rest (addEvent s (.act (.yumLocalinstall url))) := by
        simp [install_pkgs_loop, hu]
      obtain ⟨ds, h1, h2, h3⟩ := ih (addEvent s (.act (.yumLocalinstall url)))
      refine ⟨Event.act (.yumLocalinstall url) :: ds, ?_, ?_, ?_⟩
      · rw [heq, h1]; simp
      · intro e hel
        rcases List.mem_cons.mp hel with h | h
        · exact ⟨(nm, url), by simp, h⟩
        · obtain ⟨pr', hpr', hepr⟩ := h2 e h
          exact ⟨pr', by simp [hpr'], hepr⟩
      · rw [heq, h3]; rfl
    · have heq : install_pkgs_loop env ((nm, url) :: rest) s =
          .exit 1 (addEvent s (.act (.yumLocalinstall url))) := by
        simp [install_pkgs_loop, hu]
      refine ⟨[Event.act (.yumLocalinstall url)], by rw [heq]; simp, ?_, by rw [heq]; rfl⟩
      intro e hel
      simp only [List.mem_singleton] at hel
      exact ⟨(nm, url), by simp, hel⟩

theorem install_pkgs_loop_ok (env : Env) (hok : ∀ u, env.yumLocalinstallOk u = true)
    (l : List (String × String)) (s : RState) :
    ∃ s', install_pkgs_loop env l s = .ok s' := by
  induction l generalizing s with
  | nil => exact ⟨s, rfl⟩
  | cons pr rest ih =>
    obtain ⟨nm, url⟩ := pr
    obtain ⟨s', h⟩ := ih (addEvent s (.act (.yumLocalinstall url)))
    exact ⟨s', by simp [install_pkgs_loop, hok url, h]⟩

theorem install_pkgs_loop_fail (env : Env) (l : List (String × String)) (s : RState)
    (hf : ∃ pr ∈ l, env.yumLocalinstallOk pr.2 = false) :
    ∃ s', install_pkgs_loop env l s = .exit 1 s' ∧ s'.doc = s.doc := by
  induction l generalizing s with
  | nil => simp at hf
  | cons pr rest ih =>
    obtain ⟨nm, url⟩ := pr
    by_cases hu : env.yumLocalinstallOk url
    · have hf' : ∃ pr ∈ rest, env.yumLocalinstallOk pr.2 = false := by
        obtain ⟨pr', hpr', hprf⟩ := hf
        rcases List.mem_cons.mp hpr' with rfl | hin
        · rw [hu] at hprf; cases hprf
        · exact ⟨pr', hin, hprf⟩
      obtain ⟨s', h1, h2⟩ := ih (addEvent s (.act (.yumLocalinstall url))) hf'
      exact ⟨s', by simp [install_pkgs_loop, hu, h1], by simp [h2]⟩
    · exact ⟨addEvent s (.act (.yumLocalinstall url)),
        by simp [install_pkgs_loop, hu], by simp⟩

theorem reinstall_pkgs_loop_shape (env : Env) (l : List (String × String)) (s : RState) :
    ∃ ds, (reinstall_pkgs_loop env l s).state.trace = s.trace ++ ds ∧
      (∀ e ∈ ds, ∃ p, e = Event.act (.yumReinstall p)) ∧
      (reinstall_pkgs_loop env l s).state.doc = s.doc := by
  induction l generalizing s with
  | nil => exact ⟨[], by simp [reinstall_pkgs_loop], by simp, rfl⟩
  | cons pv rest ih =>
    obtain ⟨pkg, vendor⟩ := pv
    by_cases hc : vendor = "centos"
    · have heq : reinstall_pkgs_loop env ((pkg, vendor) :: rest) s =
          reinstall_pkgs_loop env rest s := by
        simp [reinstall_pkgs_loop, hc]
      obtain ⟨ds, h1, h2, h3⟩ := ih s
      exact ⟨ds, by rw [heq]; exact h1, h2, by rw [heq]; exact h3⟩
    · by_cases hr : env.yumReinstallOk pkg
      · have heq : reinstall_pkgs_loop env ((pkg, vendor) :: rest) s =
            reinstall_pkgs_loop env rest (addEvent s (.act (.yumReinstall pkg))) := by
          simp [reinstall_pkgs_loop, hc, hr]
        obtain ⟨ds, h1, h2, h3⟩ := ih (addEvent s (.act (.yumReinstall pkg)))
        refine ⟨Event.act (.yumReinstall pkg) :: ds, ?_, ?_, ?_⟩
        · rw [heq, h1]; simp
        · intro e hel
          rcases List.mem_cons.mp hel with h | h
          · exact ⟨pkg, h⟩
          · exact h2 e h
        · rw [heq, h3]; rfl
      · have heq : reinstall_pkgs_loop env ((pkg, vendor) :: rest) s =
            .exit 1 (addEvent s (.act (.yumReinstall pkg))) := by
          simp [reinstall_pkgs_loop, hc, hr]
        refine ⟨[Event.act (.yumReinstall pkg)], by rw [heq]; simp, ?_, by rw [heq]; rfl⟩
        intro e hel
        simp only [List.mem_singleton] at hel
        exact ⟨pkg, hel⟩

theorem reinstall_pkgs_loop_ok (env : Env) (hok : ∀ p, env.yumReinstallOk p = true)
    (l : List (String × String)) (s : RState) :
    ∃ s', reinstall_pkgs_loop env l s = .ok s' := by
  induction l generalizing s with
  | nil => exact ⟨s, rfl⟩
  | cons pv rest ih =>
    obtain ⟨pkg, vendor⟩ := pv
    by_cases hc : vendor = "centos"
    · obtain ⟨s', h⟩ := ih s
      exact ⟨s', by simp [reinstall_pkgs_loop, hc, h]⟩
    · obtain ⟨s', h⟩ := ih (addEvent s (.act (.yumReinstall pkg)))
      exact ⟨s', by simp [reinstall_pkgs_loop, hc, hok pkg, h]⟩

theorem reinstall_pkgs_loop_fail (env : Env) (l : List (String × String)) (s : RState)
    (hf : ∃ pv ∈ l, pv.2 ≠ "centos" ∧ env.yumReinstallOk pv.1 = false) :
    ∃ s', reinstall_pkgs_loop env l s = .exit 1 s' ∧ s'.doc = s.doc := by
  induction l generalizing s with
  | nil => simp at hf
  | cons pv rest ih =>
    obtain ⟨pkg, vendor⟩ := pv
    by_cases hc : vendor = "centos"
    · have hf' : ∃ pv ∈ rest, pv.2 ≠ "centos" ∧ env.yumReinstallOk pv.1 = false := by
        obtain ⟨pv', hpv', h1, h2⟩ := hf
        rcases List.mem_cons.mp hpv' with rfl | hin
        · exact absurd hc h1
        · exact ⟨pv', hin, h1, h2⟩
      obtain ⟨s', h1, h2⟩ := ih s hf'
      exact ⟨s', by simp [reinstall_pkgs_loop, hc, h1], h2⟩
    · by_cases hr : env.yumReinstallOk pkg
      · have hf' : ∃ pv ∈ rest, pv.2 ≠ "centos" ∧ env.yumReinstallOk pv.1 = false := by
          obtain ⟨pv', hpv', h1, h2⟩ := hf
          rcases List.mem_cons.mp hpv' with rfl | hin
          · rw [hr] at h2; cases h2
          · exact ⟨pv', hin, h1, h2⟩
        obtain ⟨s', h1, h2⟩ := ih (addEvent s (.act (.yumReinstall pkg))) hf'
        exact ⟨s', by simp [reinstall_pkgs_loop, hc, hr, h1], by simp [h2]⟩
      · exact ⟨addEvent s (.act (.yumReinstall pkg)),
          by simp [reinstall_pkgs_loop, hc, hr], by simp⟩

/-! ### StageOK for every stage -/

/-- Build `StageOK` from the guard short-circuit and an anatomy of the
guard-false case (trace delta allowed, document either untouched or with
the stage's own key set). -/
theorem stageOK_of_anatomy (st : StageDef)
    (hskip : ∀ env s, get_stage_status s.doc st.name = true → st.run env s = .ok s)
    (hana : ∀ env s, get_stage_status s.doc st.name = false →
      ∃ ds, (st.run env s).state.trace = s.trace ++ ds ∧ (∀ e ∈ ds, EventAllowed st e) ∧
        ((st.run env s).state.doc = s.doc ∨
         (st.run env s).state.doc = set_successful_stage_status s.doc st.name)) :
    StageOK st := by
  refine ⟨hskip, ?_, ?_⟩
  · intro env s
    by_cases h : get_stage_status s.doc st.name
    · exact ⟨[], by rw [hskip env s h]; simp, by simp⟩
    · obtain ⟨ds, h1, h2, _⟩ := hana env s (by simpa using h)
      exact ⟨ds, h1, h2⟩
  · intro env s Y hY
    by_cases h : get_stage_status s.doc st.name
    · simp [hskip env s h]
    · obtain ⟨_, _, _, hdoc⟩ := hana env s (by simpa using h)
      rcases hdoc with hdoc | hdoc
      · rw [hdoc]
      · rw [hdoc, get_set_ne _ _ _ hY]

theorem check_supported_os_state (env : Env) (s : RState)
    (h : get_stage_status s.doc "check_supported_os" = false) :
    (check_supported_os env s).state.trace =
      s.trace ++ [Event.enterStage "check_supported_os", Event.probeOS] ∧
    ((check_supported_os env s).state.doc = s.doc ∨
     (check_supported_os env s).state.doc =
       set_successful_stage_status s.doc "check_supported_os") := by
  simp only [check_supported_os, h, Bool.false_eq_true, if_false]
  cases hp : get_os_version_and_name env.osName env.osVersion with
  | none => simp [addEvent]
  | some t =>
    obtain ⟨maj, mnv, nm⟩ := t
    by_cases h7 : maj = SUPPORTED_MAJOR_VERSION_OS
    · by_cases hn : nm = SUPPORTED_NAME_OS
      · simp [h7, hn, addEvent]
      · simp [h7, hn, addEvent]
    · simp [h7, addEvent]

theorem checkOs_stageOK : StageOK checkOsStage := by
  apply stageOK_of_anatomy
  · intro env s h
    have h' : get_stage_status s.doc "check_supported_os" = true := h
    simp [checkOsStage, check_supported_os, h']
  · intro env s h
    have h' : get_stage_status s.doc "check_supported_os" = false := h
    obtain ⟨h1, h2⟩ := check_supported_os_state env s h'
    refine ⟨[Event.enterStage "check_supported_os", Event.probeOS], h1, ?_, h2⟩
    intro e hel
    simp only [List.mem_cons, List.mem_singleton, List.not_mem_nil, or_false] at hel
    rcases hel with rfl | rfl
    · exact Or.inl rfl
    · exact Or.inr (Or.inl rfl)

theorem remove_redhat_state (env : Env) (s : RState)
    (h : get_stage_status s.doc "remove_redhat_packages" = false) :
    ∃ ds, (remove_redhat_packages env s).state.trace =
        s.trace ++ (Event.enterStage "remove_redhat_packages" :: ds) ∧
      (∀ e ∈ ds, ∃ p ∈ redhat_removed_pkgs, e = Event.act (.rpmErase p)) ∧
      ((remove_redhat_packages env s).state.doc = s.doc ∨
       (remove_redhat_packages env s).state.doc =
         set_successful_stage_status s.doc "remove_redhat_packages") := by
  obtain ⟨ds, h1, h2, h3⟩ := erase_pkgs_loop_shape env redhat_removed_pkgs
    (addEvent s (.enterStage "remove_redhat_packages"))
  refine ⟨ds, ?_, h2, ?_⟩ <;>
    cases hr : erase_pkgs_loop env redhat_removed_pkgs
      (addEvent s (.enterStage "remove_redhat_packages")) <;>
    rw [hr] at h1 h3 <;>
    simp only [StepResult.state, addEvent_trace, addEvent_doc] at h1 h3 <;>
    simp [remove_redhat_packages, h, hr, StepResult.state, h1, h3]

theorem rmRedhat_stageOK : StageOK rmRedhatStage := by
  apply stageOK_of_anatomy
  · intro env s h
    have h' : get_stage_status s.doc "remove_redhat_packages" = true := h
    simp [rmRedhatStage, remove_redhat_packages, h']
  · intro env s h
    have h' : get_stage_status s.doc "remove_redhat_packages" = false := h
    obtain ⟨ds, h1, h2, h3⟩ := remove_redhat_state env s h'
    refine ⟨Event.enterStage "remove_redhat_packages" :: ds, h1, ?_, h3⟩
    intro e hel
    rcases List.mem_cons.mp hel with rfl | hel
    · exact Or.inl rfl
    · obtain ⟨p, hp, rfl⟩ := h2 e hel
      exact Or.inr (Or.inr ⟨.rpmErase p, rfl, p, hp, rfl⟩)

theorem remove_katello_state (env : Env) (s : RState)
    (h : get_stage_status s.doc "remove_katello_satellite_packages" = false) :
    ∃ ds, (remove_katello_satellite_packages env s).state.trace =
        s.trace ++ (Event.enterStage "remove_katello_satellite_packages" :: ds) ∧
      (∀ e ∈ ds, ∃ p ∈ katello_removed_pkgs, e = Event.act (.rpmErase p)) ∧
      ((remove_katello_satellite_packages env s).state.doc = s.doc ∨
       (remove_katello_satellite_packages env s).state.doc =
         set_successful_stage_status s.doc "remove_katello_satellite_packages") := by
  obtain ⟨ds, h1, h2, h3⟩ := erase_pkgs_loop_shape env katello_removed_pkgs
    (addEvent s (.enterStage "remove_katello_satellite_packages"))
  refine ⟨ds, ?_, h2, ?_⟩ <;>
    cases hr : erase_pkgs_loop env katello_removed_pkgs
      (addEvent s (.enterStage "remove_katello_satellite_packages")) <;>
    rw [hr] at h1 h3 <;>
    simp only [StepResult.state, addEvent_trace, addEvent_doc] at h1 h3 <;>
    simp [remove_katello_satellite_packages, h, hr, StepResult.state, h1, h3]

theorem katello_stageOK : StageOK katelloStage := by
  apply stageOK_of_anatomy
  · intro env s h
    have h' : get_stage_status s.doc "remove_katello_satellite_packages" = true := h
    simp [katelloStage, remove_katello_satellite_packages, h']
  · intro env s h
    have h' : get_stage_status s.doc "remove_katello_satellite_packages" = false := h
    obtain ⟨ds, h1, h2, h3⟩ := remove_katello_state env s h'
    refine ⟨Event.enterStage "remove_katello_satellite_packages" :: ds, h1, ?_, h3⟩
    intro e hel
    rcases List.mem_cons.mp hel with rfl | hel
    · exact Or.inl rfl
    · obtain ⟨p, hp, rfl⟩ := h2 e hel
      exact Or.inr (Or.inr ⟨.rpmErase p, rfl, p, hp, rfl⟩)

theorem remove_dirs_state (env : Env) (s : RState)
    (h : get_stage_status s.doc "remove_not_needed_dirs" = false) :
    ∃ ds, (remove_not_needed_dirs env s).state.trace =
        s.trace ++ (Event.enterStage "remove_not_needed_dirs" :: ds) ∧
      (∀ e ∈ ds, ∃ d ∈ not_needed_dirs, e = Event.act (.rmtree d)) ∧
      (remove_not_needed_dirs env s).state.doc =
        set_successful_stage_status s.doc "remove_not_needed_dirs" := by
  obtain ⟨ds, h1, h2, h3⟩ := remove_dirs_loop_shape env not_needed_dirs
    (addEvent s (.enterStage "remove_not_needed_dirs"))
  simp only [addEvent_trace, addEvent_doc] at h1 h3
  refine ⟨ds, ?_, h2, ?_⟩ <;>
    simp [remove_not_needed_dirs, h, StepResult.state, h1, h3]

theorem rmDirs_stageOK : StageOK rmDirsStage := by
  apply stageOK_of_anatomy
  · intro env s h
    have h' : get_stage_status s.doc "remove_not_needed_dirs" = true := h
    simp [rmDirsStage, remove_not_needed_dirs, h']
  · intro env s h
    have h' : get_stage_status s.doc "remove_not_needed_dirs" = false := h
    obtain ⟨ds, h1, h2, h3⟩ := remove_dirs_state env s h'
    refine ⟨Event.enterStage "remove_not_needed_dirs" :: ds, h1, ?_, Or.inr h3⟩
    intro e hel
    rcases List.mem_cons.mp hel with rfl | hel
    · exact Or.inl rfl
    · obtain ⟨d, hd, rfl⟩ := h2 e hel
      exact Or.inr (Or.inr ⟨.rmtree d, rfl, d, hd, rfl⟩)

theorem install_centos_state (env : Env) (s : RState)
    (h : get_stage_status s.doc "install_centos_packages" = false) :
    ∃ ds, (install_centos_packages env s).state.trace =
        s.trace ++ (Event.enterStage "install_centos_packages" :: ds) ∧
      (∀ e ∈ ds, ∃ pr ∈ centos_installed_pkgs, e = Event.act (.yumLocalinstall pr.2)) ∧
      ((install_centos_packages env s).state.doc = s.doc ∨
       (install_centos_packages env s).state.doc =
         set_successful_stage_status s.doc "install_centos_packages") := by
  obtain ⟨ds, h1, h2, h3⟩ := install_pkgs_loop_shape env centos_installed_pkgs
    (addEvent s (.enterStage "install_centos_packages"))
  refine ⟨ds, ?_, h2, ?_⟩ <;>
    cases hr : install_pkgs_loop env centos_installed_pkgs
      (addEvent s (.enterStage "install_centos_packages")) <;>
    rw [hr] at h1 h3 <;>
    simp only [StepResult.state, addEvent_trace, addEvent_doc] at h1 h3 <;>
    simp [install_centos_packages, h, hr, StepResult.state, h1, h3]

theorem install_stageOK : StageOK installStage := by
  apply stageOK_of_anatomy
  · intro env s h
    have h' : get_stage_status s.doc "install_centos_packages" = true := h
    simp [installStage, install_centos_packages, h']
  · intro env s h
    have h' : get_stage_status s.doc "install_centos_packages" = false := h
    obtain ⟨ds, h1, h2, h3⟩ := install_centos_state env s h'
    refine ⟨Event.enterStage "install_centos_packages" :: ds, h1, ?_, h3⟩
    intro e hel
    rcases List.mem_cons.mp hel with rfl | hel
    · exact Or.inl rfl
    · obtain ⟨pr, hpr, rfl⟩ := h2 e hel
      exact Or.inr (Or.inr ⟨.yumLocalinstall pr.2, rfl, pr, hpr, rfl⟩)

theorem update_state (env : Env) (s : RState)
    (h : get_stage_status s.doc "update_the_system" = false) :
    (update_the_system env s).state.trace =
      s.trace ++ [Event.enterStage "update_the_system", Event.act .yumUpdate] ∧
    ((update_the_system env s).state.doc = s.doc ∨
     (update_the_system env s).state.doc =
       set_successful_stage_status s.doc "update_the_system") := by
  by_cases hu : env.yumUpdateOk <;> simp [update_the_system, h, hu, addEvent]

theorem update_stageOK : StageOK updateStage := by
  apply stageOK_of_anatomy
  · intro env s h
    have h' : get_stage_status s.doc "update_the_system" = true := h
    simp [updateStage, update_the_system, h']
  · intro env s h
    have h' : get_stage_status s.doc "update_the_system" = false := h
    obtain ⟨h1, h2⟩ := update_state env s h'
    refine ⟨[Event.enterStage "update_the_system", Event.act .yumUpdate], h1, ?_, h2⟩
    intro e hel
    simp only [List.mem_cons, List.not_mem_nil, or_false] at hel
    rcases hel with rfl | rfl
    · exact Or.inl rfl
    · exact Or.inr (Or.inr ⟨.yumUpdate, rfl, rfl⟩)

theorem sync_state (env : Env) (s : RState)
    (h : get_stage_status s.doc "synchronization_of_distribution" = false) :
    (synchronization_of_distribution env s).state.trace =
      s.trace ++ [Event.enterStage "synchronization_of_distribution", Event.act .distroSync] ∧
    ((synchronization_of_distribution env s).state.doc = s.doc ∨
     (synchronization_of_distribution env s).state.doc =
       set_successful_stage_status s.doc "synchronization_of_distribution") := by
  by_cases hu : env.distroSyncOk <;> simp [synchronization_of_distribution, h, hu, addEvent]

theorem sync_stageOK : StageOK syncStage := by
  apply stageOK_of_anatomy
  · intro env s h
    have h' : get_stage_status s.doc "synchronization_of_distribution" = true := h
    simp [syncStage, synchronization_of_distribution, h']
  · intro env s h
    have h' : get_stage_status s.doc "synchronization_of_distribution" = false := h
    obtain ⟨h1, h2⟩ := sync_state env s h'
    refine ⟨[Event.enterStage "synchronization_of_distribution", Event.act .distroSync],
      h1, ?_, h2⟩
    intro e hel
    simp only [List.mem_cons, List.not_mem_nil, or_false] at hel
    rcases hel with rfl | rfl
    · exact Or.inl rfl
    · exact Or.inr (Or.inr ⟨.distroSync, rfl, rfl⟩)

theorem recreate_grub_state (env : Env) (p : String) (s : RState)
    (h : get_stage_status s.doc "recreate_grub_config" = false) :
    (recreate_grub_config env p s).state.trace =
      s.trace ++ [Event.enterStage "recreate_grub_config", Event.act (.grubMkconfig p)] ∧
    ((recreate_grub_config env p s).state.doc = s.doc ∨
     (recreate_grub_config env p s).state.doc =
       set_successful_stage_status s.doc "recreate_grub_config") := by
  by_cases hu : env.grubMkconfigOk p <;> simp [recreate_grub_config, h, hu, addEvent]

theorem grubEfi_stageOK : StageOK grubEfiStage := by
  apply stageOK_of_anatomy
  · intro env s h
    have h' : get_stage_status s.doc "recreate_grub_config" = true := h
    simp [grubEfiStage, recreate_grub_config, h']
  · intro env s h
    have h' : get_stage_status s.doc "recreate_grub_config" = false := h
    obtain ⟨h1, h2⟩ := recreate_grub_state env "/boot/efi/EFI/centos/grub.cfg" s h'
    refine ⟨[Event.enterStage "recreate_grub_config",
      Event.act (.grubMkconfig "/boot/efi/EFI/centos/grub.cfg")], h1, ?_, h2⟩
    intro e hel
    simp only [List.mem_cons, List.not_mem_nil, or_false] at hel
    rcases hel with rfl | rfl
    · exact Or.inl rfl
    · exact Or.inr (Or.inr ⟨.grubMkconfig "/boot/efi/EFI/centos/grub.cfg", rfl, rfl⟩)

theorem grubLegacy_stageOK : StageOK grubLegacyStage := by
  apply stageOK_of_anatomy
  · intro env s h
    have h' : get_stage_status s.doc "recreate_grub_config" = true := h
    simp [grubLegacyStage, recreate_grub_config, h']
  · intro env s h
    have h' : get_stage_status s.doc "recreate_grub_config" = false := h
    obtain ⟨h1, h2⟩ := recreate_grub_state env "/boot/grub2/grub.cfg" s h'
    refine ⟨[Event.enterStage "recreate_grub_config",
      Event.act (.grubMkconfig "/boot/grub2/grub.cfg")], h1, ?_, h2⟩
    intro e hel
    simp only [List.mem_cons, List.not_mem_nil, or_false] at hel
    rcases hel with rfl | rfl
    · exact Or.inl rfl
    · exact Or.inr (Or.inr ⟨.grubMkconfig "/boot/grub2/grub.cfg", rfl, rfl⟩)

theorem reinstall_state (env : Env) (s : RState)
    (h : get_stage_status s.doc "reinstall_secure_boot_related_packages" = false) :
    ∃ ds, (reinstall_secure_boot_related_packages env s).state.trace =
        s.trace ++ (Event.enterStage "reinstall_secure_boot_related_packages" :: ds) ∧
      (∀ e ∈ ds, ∃ p, e = Event.act (.yumReinstall p)) ∧
      ((reinstall_secure_boot_related_packages env s).state.doc = s.doc ∨
       (reinstall_secure_boot_related_packages env s).state.doc =
         set_successful_stage_status s.doc "reinstall_secure_boot_related_packages") := by
  by_cases hqa : env.rpmQaOk
  · by_cases hk : env.defaultKernelOk
    · obtain ⟨ds, h1, h2, h3⟩ := reinstall_pkgs_loop_shape env
        (dict_update (collect_sb_pkgs env.rpmQa [])
          [(env.defaultKernelPkg, env.defaultKernelVendor.toLower)])
        (addEvent s (.enterStage "reinstall_secure_boot_related_packages"))
      refine ⟨ds, ?_, h2, ?_⟩ <;>
        cases hr : reinstall_pkgs_loop env
          (dict_update (collect_sb_pkgs env.rpmQa [])
            [(env.defaultKernelPkg, env.defaultKernelVendor.toLower)])
          (addEvent s (.enterStage "reinstall_secure_boot_related_packages")) <;>
        rw [hr] at h1 h3 <;>
        simp only [StepResult.state, addEvent_trace, addEvent_doc] at h1 h3 <;>
        simp [reinstall_secure_boot_related_packages, get_pkgs_related_to_secure_boot,
          get_kernel_pkg_name_for_default_boot_record, h, hqa, hk, hr,
          StepResult.state, h1, h3]
    · refine ⟨[], ?_, by simp, Or.inl ?_⟩ <;>
        simp [reinstall_secure_boot_related_packages, get_pkgs_related_to_secure_boot,
          get_kernel_pkg_name_for_default_boot_record, h, hqa, hk,
          StepResult.state, addEvent]
  · refine ⟨[], ?_, by simp, Or.inl ?_⟩ <;>
      simp [reinstall_secure_boot_related_packages, get_pkgs_related_to_secure_boot,
        h, hqa, StepResult.state, addEvent]

theorem reinstall_stageOK : StageOK reinstallStage := by
  apply stageOK_of_anatomy
  · intro env s h
    have h' : get_stage_status s.doc "reinstall_secure_boot_related_packages" = true := h
    simp [reinstallStage, reinstall_secure_boot_related_packages, h']
  · intro env s h
    have h' : get_stage_status s.doc "reinstall_secure_boot_related_packages" = false := h
    obtain ⟨ds, h1, h2, h3⟩ := reinstall_state env s h'
    refine ⟨Event.enterStage "reinstall_secure_boot_related_packages" :: ds, h1, ?_, h3⟩
    intro e hel
    rcases List.mem_cons.mp hel with rfl | hel
    · exact Or.inl rfl
    · obtain ⟨p, rfl⟩ := h2 e hel
      exact Or.inr (Or.inr ⟨.yumReinstall p, rfl, p, rfl⟩)

theorem efiboot_state (env : Env) (s : RState)
    (h : get_stage_status s.doc "add_boot_record_by_efibootmgr" = false) :
    (add_boot_record_by_efibootmgr env s).state.trace =
      s.trace ++ [Event.enterStage "add_boot_record_by_efibootmgr", Event.act .efibootmgrAdd] ∧
    ((add_boot_record_by_efibootmgr env s).state.doc = s.doc ∨
     (add_boot_record_by_efibootmgr env s).state.doc =
       set_successful_stage_status s.doc "add_boot_record_by_efibootmgr") := by
  by_cases hu : env.efibootmgrOk <;> simp [add_boot_record_by_efibootmgr, h, hu, addEvent]

theorem efiboot_stageOK : StageOK efibootStage := by
  apply stageOK_of_anatomy
  · intro env s h
    have h' : get_stage_status s.doc "add_boot_record_by_efibootmgr" = true := h
    simp [efibootStage, add_boot_record_by_efibootmgr, h']
  · intro env s h
    have h' : get_stage_status s.doc "add_boot_record_by_efibootmgr" = false := h
    obtain ⟨h1, h2⟩ := efiboot_state env s h'
    refine ⟨[Event.enterStage "add_boot_record_by_efibootmgr", Event.act .efibootmgrAdd],
      h1, ?_, h2⟩
    intro e hel
    simp only [List.mem_cons, List.not_mem_nil, or_false] at hel
    rcases hel with rfl | rfl
    · exact Or.inl rfl
    · exact Or.inr (Or.inr ⟨.efibootmgrAdd, rfl, rfl⟩)

theorem default_grub_state (env : Env) (s : RState)
    (h : get_stage_status s.doc "check_and_set_default_grub_record" = false) :
    ((check_and_set_default_grub_record env s).state.trace =
        s.trace ++ [Event.enterStage "check_and_set_default_grub_record"] ∨
     (check_and_set_default_grub_record env s).state.trace =
        s.trace ++ [Event.enterStage "check_and_set_default_grub_record",
          Event.act .grubbySetDefault]) ∧
    ((check_and_set_default_grub_record env s).state.doc = s.doc ∨
     (check_and_set_default_grub_record env s).state.doc =
       set_successful_stage_status s.doc "check_and_set_default_grub_record") := by
  by_cases hi : env.grubbyInfoDefaultOk
  · simp [check_and_set_default_grub_record, h, hi, addEvent]
  · by_cases hs : env.grubbySetDefaultOk <;>
      simp [check_and_set_default_grub_record, h, hi, hs, addEvent]

theorem defaultGrub_stageOK : StageOK defaultGrubStage := by
  apply stageOK_of_anatomy
  · intro env s h
    have h' : get_stage_status s.doc "check_and_set_default_grub_record" = true := h
    simp [defaultGrubStage, check_and_set_default_grub_record, h']
  · intro env s h
    have h' : get_stage_status s.doc "check_and_set_default_grub_record" = false := h
    obtain ⟨h1, h2⟩ := default_grub_state env s h'
    rcases h1 with h1 | h1
    · refine ⟨[Event.enterStage "check_and_set_default_grub_record"], h1, ?_, h2⟩
      intro e hel
      simp only [List.mem_singleton] at hel
      subst hel
      exact Or.inl rfl
    · refine ⟨[Event.enterStage "check_and_set_default_grub_record",
        Event.act .grubbySetDefault], h1, ?_, h2⟩
      intro e hel
      simp only [List.mem_cons, List.not_mem_nil, or_false] at hel
      rcases hel with rfl | rfl
      · exact Or.inl rfl
      · exact Or.inr (Or.inr ⟨.grubbySetDefault, rfl, rfl⟩)

/-- Every stage of every pipeline satisfies its structural contract. -/
theorem stageOK_all : ∀ st ∈ allStages, StageOK st := by
  intro st hst
  simp only [allStages, List.mem_cons, List.not_mem_nil, or_false] at hst
  rcases hst with rfl | rfl | rfl | rfl | rfl | rfl | rfl | rfl | rfl | rfl | rfl | rfl
  · exact checkOs_stageOK
  · exact rmRedhat_stageOK
  · exact rmDirs_stageOK
  · exact katello_stageOK
  · exact install_stageOK
  · exact update_stageOK
  · exact sync_stageOK
  · exact grubEfi_stageOK
  · exact grubLegacy_stageOK
  · exact reinstall_stageOK
  · exact efiboot_stageOK
  · exact defaultGrub_stageOK

/-- Each run's pipeline is drawn from `allStages`. -/
theorem pipeline_sub_all (env : Env) : ∀ st ∈ pipeline env, st ∈ allStages := by
  intro st hst
  cases hk : is_katello_satelite env <;> cases he : is_efi_system env <;>
    simp only [pipeline, hk, he, if_true, if_false, List.append_assoc, List.mem_append,
      List.mem_cons, List.not_mem_nil, or_false, Bool.false_eq_true] at hst <;>
    simp only [allStages, List.mem_cons, List.not_mem_nil, or_false] <;>
    tauto

/-- Every stage of every pipeline satisfies its contract. -/
theorem pipeline_stageOK (env : Env) : ∀ st ∈ pipeline env, StageOK st :=
  fun st hst => stageOK_all st (pipeline_sub_all env st hst)

/-! ## Generic theorems about a run of the pipeline -/

theorem not_enter_of_allowed (st : StageDef) (X : String) (hX : X ≠ st.name)
    (ds : List Event) (ha : ∀ e ∈ ds, EventAllowed st e) :
    Event.enterStage X ∉ ds := by
  intro hmem
  rcases ha _ hmem with h | h | ⟨a, h, _⟩
  · injection h with h'
    exact hX h'
  · exact Event.noConfusion h
  · exact Event.noConfusion h

theorem not_act_of_allowed (st : StageDef) (a0 : Action) (hna : ¬ st.acts a0)
    (ds : List Event) (ha : ∀ e ∈ ds, EventAllowed st e) :
    Event.act a0 ∉ ds := by
  intro hmem
  rcases ha _ hmem with h | h | ⟨a, h, hacts⟩
  · exact Event.noConfusion h
  · exact Event.noConfusion h
  · injection h with h'
    exact hna (by rwa [h'])

/-- A run only appends events, and every appended event belongs to one of
the stages of the list. -/
theorem runStages_shape (env : Env) :
    ∀ ps : List StageDef, (∀ st ∈ ps, StageOK st) → ∀ s : RState,
    ∃ ds, (runStages env ps s).state.trace = s.trace ++ ds ∧
      ∀ e ∈ ds, ∃ st ∈ ps, EventAllowed st e := by
  intro ps
  induction ps with
  | nil => exact fun _ s => ⟨[], by simp [runStages], by simp⟩
  | cons st rest ih =>
    intro hok s
    obtain ⟨d1, hd1, ha1⟩ := (hok st (List.mem_cons_self st rest)).shape env s
    cases hr : st.run env s with
    | ok s1 =>
      rw [hr] at hd1
      simp only [StepResult.state] at hd1
      obtain ⟨d2, hd2, ha2⟩ := ih (fun q hq => hok q (List.mem_cons_of_mem st hq)) s1
      refine ⟨d1 ++ d2, ?_, ?_⟩
      · have : runStages env (st :: rest) s = runStages env rest s1 := by
          simp [runStages, hr]
        rw [this, hd2, hd1, List.append_assoc]
      · intro e he
        rcases List.mem_append.mp he with he | he
        · exact ⟨st, List.mem_cons_self st rest, ha1 e he⟩
        · obtain ⟨q, hq, hqa⟩ := ha2 e he
          exact ⟨q, List.mem_cons_of_mem st hq, hqa⟩
    | exit c s1 =>
      rw [hr] at hd1
      simp only [StepResult.state] at hd1
      refine ⟨d1, ?_, fun e he => ⟨st, List.mem_cons_self st rest, ha1 e he⟩⟩
      have : runStages env (st :: rest) s = .exit c s1 := by
        simp [runStages, hr]
      rw [this]
      exact hd1
    | crash s1 =>
      rw [hr] at hd1
      simp only [StepResult.state] at hd1
      refine ⟨d1, ?_, fun e he => ⟨st, List.mem_cons_self st rest, ha1 e he⟩⟩
      have : runStages env (st :: rest) s = .crash s1 := by
        simp [runStages, hr]
      rw [this]
      exact hd1

/-- A run preserves the status of every key that is not the key of one of
its stages. -/
theorem runStages_docpres (env : Env) :
    ∀ ps : List StageDef, (∀ st ∈ ps, StageOK st) → ∀ Y : String,
    (∀ st ∈ ps, Y ≠ st.name) → ∀ s : RState,
    get_stage_status (runStages env ps s).state.doc Y = get_stage_status s.doc Y := by
  intro ps
  induction ps with
  | nil => intro _ Y _ s; simp [runStages]
  | cons st rest ih =>
    intro hok Y hY s
    have hd := (hok st (List.mem_cons_self st rest)).docpres env s Y
      (hY st (List.mem_cons_self st rest))
    cases hr : st.run env s with
    | ok s1 =>
      rw [hr] at hd
      simp only [StepResult.state] at hd
      have : runStages env (st :: rest) s = runStages env rest s1 := by
        simp [runStages, hr]
      rw [this, ih (fun q hq => hok q (List.mem_cons_of_mem st hq)) Y
        (fun q hq => hY q (List.mem_cons_of_mem st hq)) s1, hd]
    | exit c s1 =>
      rw [hr] at hd
      have : runStages env (st :: rest) s = .exit c s1 := by
        simp [runStages, hr]
      rw [this]
      exact hd
    | crash s1 =>
      rw [hr] at hd
      have : runStages env (st :: rest) s = .crash s1 := by
        simp [runStages, hr]
      rw [this]
      exact hd

/-- The skip invariant: a key that is `true` at the start of the run stays
`true`, and the body of the stage with that key is never entered. -/
theorem runStages_key_true (env : Env) :
    ∀ ps : List StageDef, (∀ st ∈ ps, StageOK st) → ∀ (X : String) (s : RState),
    get_stage_status s.doc X = true → Event.enterStage X ∉ s.trace →
    get_stage_status (runStages env ps s).state.doc X = true ∧
      Event.enterStage X ∉ (runStages env ps s).state.trace := by
  intro ps
  induction ps with
  | nil => intro _ X s h1 h2; simpa [runStages] using ⟨h1, h2⟩
  | cons st rest ih =>
    intro hok X s h1 h2
    have htail := fun q hq => hok q (List.mem_cons_of_mem st hq)
    by_cases hx : X = st.name
    · have hskip := (hok st (List.mem_cons_self st rest)).skip env s (hx ▸ h1)
      have : runStages env (st :: rest) s = runStages env rest s := by
        simp [runStages, hskip]
      rw [this]
      exact ih htail X s h1 h2
    · obtain ⟨d1, hd1, ha1⟩ := (hok st (List.mem_cons_self st rest)).shape env s
      have hdp := (hok st (List.mem_cons_self st rest)).docpres env s X hx
      have hne := not_enter_of_allowed st X hx d1 ha1
      cases hr : st.run env s with
      | ok s1 =>
        rw [hr] at hd1 hdp
        simp only [StepResult.state] at hd1 hdp
        have hrun : runStages env (st :: rest) s = runStages env rest s1 := by
          simp [runStages, hr]
        rw [hrun]
        refine ih htail X s1 (by rw [hdp]; exact h1) ?_
        rw [hd1]
        intro hmem
        rcases List.mem_append.mp hmem with hmem | hmem
        · exact h2 hmem
        · exact hne hmem
      | exit c s1 =>
        rw [hr] at hd1 hdp
        simp only [StepResult.state] at hd1 hdp
        have hrun : runStages env (st :: rest) s = .exit c s1 := by
          simp [runStages, hr]
        rw [hrun]
        simp only [StepResult.state]
        refine ⟨by rw [hdp]; exact h1, ?_⟩
        rw [hd1]
        intro hmem
        rcases List.mem_append.mp hmem with hmem | hmem
        · exact h2 hmem
        · exact hne hmem
      | crash s1 =>
        rw [hr] at hd1 hdp
        simp only [StepResult.state] at hd1 hdp
        have hrun : runStages env (st :: rest) s = .crash s1 := by
          simp [runStages, hr]
        rw [hrun]
        simp only [StepResult.state]
        refine ⟨by rw [hdp]; exact h1, ?_⟩
        rw [hd1]
        intro hmem
        rcases List.mem_append.mp hmem with hmem | hmem
        · exact h2 hmem
        · exact hne hmem

theorem name_ne_of_nodup_head (q0 : StageDef) (l : List StageDef)
    (hnd : ((q0 :: l).map StageDef.name).Nodup) :
    ∀ q ∈ l, q.name ≠ q0.name := by
  intro q hq h
  rw [List.map_cons, List.nodup_cons] at hnd
  exact hnd.1 (h ▸ List.mem_map_of_mem StageDef.name hq)

/-- Progress: when every stage of the list returns normally, the whole run
returns normally, the trace only grows, and every stage whose key was
`false` at the start has contributed its witness events (`W`). -/
theorem runStages_progress (env : Env) (W : StageDef → List Event) :
    ∀ ps : List StageDef, (∀ st ∈ ps, StageOK st) → (ps.map StageDef.name).Nodup →
    (∀ st ∈ ps, ∀ s : RState, ∃ s', st.run env s = .ok s' ∧
      (get_stage_status s.doc st.name = false → ∀ e ∈ W st, e ∈ s'.trace)) →
    ∀ s : RState, ∃ s', runStages env ps s = .ok s' ∧
      (∃ ds, s'.trace = s.trace ++ ds) ∧
      ∀ st ∈ ps, get_stage_status s.doc st.name = false → ∀ e ∈ W st, e ∈ s'.trace := by
  intro ps
  induction ps with
  | nil => intro _ _ _ s; exact ⟨s, rfl, ⟨[], by simp⟩, by simp⟩
  | cons st rest ih =>
    intro hok hnd hprog s
    have hhead := List.mem_cons_self st rest
    obtain ⟨s1, hr, hw⟩ := hprog st hhead s
    obtain ⟨d1, hd1, _⟩ := (hok st hhead).shape env s
    rw [hr] at hd1
    simp only [StepResult.state] at hd1
    have hnd' : (rest.map StageDef.name).Nodup := by
      rw [List.map_cons, List.nodup_cons] at hnd
      exact hnd.2
    have hname := name_ne_of_nodup_head st rest hnd
    obtain ⟨s2, hr2, ⟨d2, hd2⟩, hmem⟩ :=
      ih (fun q hq => hok q (List.mem_cons_of_mem st hq)) hnd'
        (fun q hq => hprog q (List.mem_cons_of_mem st hq)) s1
    refine ⟨s2, by simp [runStages, hr, hr2], ⟨d1 ++ d2, by rw [hd2, hd1, List.append_assoc]⟩, ?_⟩
    intro q hq hguard e he
    rcases List.mem_cons.mp hq with rfl | hq'
    · have := hw hguard e he
      rw [hd2]
      exact List.mem_append_left _ this
    · have hdp := (hok st hhead).docpres env s q.name (hname q hq')
      rw [hr] at hdp
      simp only [StepResult.state] at hdp
      exact hmem q hq' (by rw [hdp]; exact hguard) e he

/-- Fail-fast: when the stages before `st` return normally and `st`'s body
hard-fails (exiting 1 with the document untouched), the whole run exits 1,
`st`'s key is still `false`, every key of no stage of the list is
untouched, and no stage after `st` has been entered. -/
theorem runStages_fail (env : Env) :
    ∀ (pre : List StageDef) (st : StageDef) (post : List StageDef),
    (∀ q ∈ pre ++ st :: post, StageOK q) →
    ((pre ++ st :: post).map StageDef.name).Nodup →
    (∀ q ∈ pre, ∀ s : RState, ∃ s', q.run env s = .ok s') →
    (∀ s : RState, get_stage_status s.doc st.name = false →
      ∃ s', st.run env s = .exit 1 s' ∧ s'.doc = s.doc) →
    ∀ s : RState, get_stage_status s.doc st.name = false →
    (∀ q ∈ post, Event.enterStage q.name ∉ s.trace) →
    ∃ s', runStages env (pre ++ st :: post) s = .exit 1 s' ∧
      get_stage_status s'.doc st.name = false ∧
      (∀ Y : String, (∀ q ∈ pre ++ st :: post, Y ≠ q.name) →
        get_stage_status s'.doc Y = get_stage_status s.doc Y) ∧
      ∀ q ∈ post, Event.enterStage q.name ∉ s'.trace := by
  intro pre
  induction pre with
  | nil =>
    intro st post hok hnd hpre hfail s hguard hpost
    obtain ⟨s', hr, hdoc⟩ := hfail s hguard
    obtain ⟨d1, hd1, ha1⟩ := (hok st (by simp)).shape env s
    rw [hr] at hd1
    simp only [StepResult.state] at hd1
    refine ⟨s', by simp [runStages, hr], by rw [hdoc]; exact hguard,
      fun Y _ => by rw [hdoc], ?_⟩
    intro q hq
    have hqname : q.name ≠ st.name :=
      name_ne_of_nodup_head st post (by simpa using hnd) q hq
    rw [hd1]
    intro hmem
    rcases List.mem_append.mp hmem with hmem | hmem
    · exact hpost q hq hmem
    · exact not_enter_of_allowed st q.name hqname d1 ha1 hmem
  | cons q0 pre' ih =>
    intro st post hok hnd hpre hfail s hguard hpost
    obtain ⟨s1, hr⟩ := hpre q0 (List.mem_cons_self q0 pre') s
    have hq0ok := hok q0 (by simp)
    obtain ⟨d1, hd1, ha1⟩ := hq0ok.shape env s
    rw [hr] at hd1
    simp only [StepResult.state] at hd1
    have hnd0 : ((q0 :: (pre' ++ st :: post)).map StageDef.name).Nodup := by
      simpa using hnd
    have hst_ne : st.name ≠ q0.name :=
      name_ne_of_nodup_head q0 (pre' ++ st :: post) hnd0 st (by simp)
    have hdp := hq0ok.docpres env s st.name hst_ne
    rw [hr] at hdp
    simp only [StepResult.state] at hdp
    have hpost1 : ∀ q ∈ post, Event.enterStage q.name ∉ s1.trace := by
      intro q hq
      have hqname : q.name ≠ q0.name :=
        name_ne_of_nodup_head q0 (pre' ++ st :: post) hnd0 q (by simp [hq])
      rw [hd1]
      intro hmem
      rcases List.mem_append.mp hmem with hmem | hmem
      · exact hpost q hq hmem
      · exact not_enter_of_allowed q0 q.name hqname d1 ha1 hmem
    obtain ⟨s', hrun, hg', hpres, hpost'⟩ :=
      ih st post (fun q hq => hok q (List.mem_cons_of_mem q0 hq))
        (by rw [List.map_cons, List.nodup_cons] at hnd0; exact hnd0.2)
        (fun q hq => hpre q (List.mem_cons_of_mem q0 hq)) hfail s1
        (by rw [hdp]; exact hguard) hpost1
    refine ⟨s', ?_, hg', ?_, hpost'⟩
    · have : runStages env ((q0 :: pre') ++ st :: post) s =
          runStages env (pre' ++ st :: post) s1 := by
        simp [runStages, hr]
      rw [this, hrun]
    · intro Y hY
      have hdpY := hq0ok.docpres env s Y (hY q0 (by simp))
      rw [hr] at hdpY
      simp only [StepResult.state] at hdpY
      rw [hpres Y (fun q hq => hY q (List.mem_cons_of_mem q0 hq)), hdpY]

/-! ## Per-stage progress (all its commands succeed) and hard failure -/

theorem check_supported_os_progress (env : Env) (m : Nat)
    (hos : get_os_version_and_name env.osName env.osVersion = some (7, m, "redhat"))
    (s : RState) :
    ∃ s', check_supported_os env s = .ok s' ∧
      (get_stage_status s.doc "check_supported_os" = false →
        Event.enterStage "check_supported_os" ∈ s'.trace) := by
  by_cases h : get_stage_status s.doc "check_supported_os"
  · exact ⟨s, by simp [check_supported_os, h], by simp [h]⟩
  · have h' : get_stage_status s.doc "check_supported_os" = false := by simpa using h
    refine ⟨markStage (addEvent (addEvent s (.enterStage "check_supported_os")) .probeOS)
      "check_supported_os", ?_, fun _ => by simp [addEvent]⟩
    simp [check_supported_os, h', hos, SUPPORTED_MAJOR_VERSION_OS, SUPPORTED_NAME_OS]

theorem remove_redhat_progress (env : Env) (hok : ∀ p, env.rpmEraseOk p = true)
    (s : RState) :
    ∃ s', remove_redhat_packages env s = .ok s' ∧
      (get_stage_status s.doc "remove_redhat_packages" = false →
        Event.enterStage "remove_redhat_packages" ∈ s'.trace) := by
  by_cases h : get_stage_status s.doc "remove_redhat_packages"
  · exact ⟨s, by simp [remove_redhat_packages, h], by simp [h]⟩
  · have h' : get_stage_status s.doc "remove_redhat_packages" = false := by simpa using h
    obtain ⟨s1, hr⟩ := erase_pkgs_loop_ok env hok redhat_removed_pkgs
      (addEvent s (.enterStage "remove_redhat_packages"))
    obtain ⟨ds, hd, _, _⟩ := erase_pkgs_loop_shape env redhat_removed_pkgs
      (addEvent s (.enterStage "remove_redhat_packages"))
    rw [hr] at hd
    simp only [StepResult.state, addEvent_trace] at hd
    refine ⟨markStage s1 "remove_redhat_packages",
      by simp [remove_redhat_packages, h', hr], fun _ => ?_⟩
    simp [hd]

theorem remove_katello_progress (env : Env) (hok : ∀ p, env.rpmEraseOk p = true)
    (s : RState) :
    ∃ s', remove_katello_satellite_packages env s = .ok s' ∧
      (get_stage_status s.doc "remove_katello_satellite_packages" = false →
        Event.enterStage "remove_katello_satellite_packages" ∈ s'.trace) := by
  by_cases h : get_stage_status s.doc "remove_katello_satellite_packages"
  · exact ⟨s, by simp [remove_katello_satellite_packages, h], by simp [h]⟩
  · have h' : get_stage_status s.doc "remove_katello_satellite_packages" = false := by
      simpa using h
    obtain ⟨s1, hr⟩ := erase_pkgs_loop_ok env hok katello_removed_pkgs
      (addEvent s (.enterStage "remove_katello_satellite_packages"))
    obtain ⟨ds, hd, _, _⟩ := erase_pkgs_loop_shape env katello_removed_pkgs
      (addEvent s (.enterStage "remove_katello_satellite_packages"))
    rw [hr] at hd
    simp only [StepResult.state, addEvent_trace] at hd
    refine ⟨markStage s1 "remove_katello_satellite_packages",
      by simp [remove_katello_satellite_packages, h', hr], fun _ => ?_⟩
    simp [hd]

theorem remove_dirs_progress (env : Env) (s : RState) :
    ∃ s', remove_not_needed_dirs env s = .ok s' ∧
      (get_stage_status s.doc "remove_not_needed_dirs" = false →
        Event.enterStage "remove_not_needed_dirs" ∈ s'.trace) := by
  by_cases h : get_stage_status s.doc "remove_not_needed_dirs"
  · exact ⟨s, by simp [remove_not_needed_dirs, h], by simp [h]⟩
  · have h' : get_stage_status s.doc "remove_not_needed_dirs" = false := by simpa using h
    obtain ⟨ds, hd, _, _⟩ := remove_dirs_loop_shape env not_needed_dirs
      (addEvent s (.enterStage "remove_not_needed_dirs"))
    simp only [addEvent_trace] at hd
    refine ⟨markStage (remove_dirs_loop env not_needed_dirs
      (addEvent s (.enterStage "remove_not_needed_dirs"))) "remove_not_needed_dirs",
      by simp [remove_not_needed_dirs, h'], fun _ => ?_⟩
    simp [hd]

theorem install_centos_progress (env : Env) (hok : ∀ u, env.yumLocalinstallOk u = true)
    (s : RState) :
    ∃ s', install_centos_packages env s = .ok s' ∧
      (get_stage_status s.doc "install_centos_packages" = false →
        Event.enterStage "install_centos_packages" ∈ s'.trace) := by
  by_cases h : get_stage_status s.doc "install_centos_packages"
  · exact ⟨s, by simp [install_centos_packages, h], by simp [h]⟩
  · have h' : get_stage_status s.doc "install_centos_packages" = false := by simpa using h
    obtain ⟨s1, hr⟩ := install_pkgs_loop_ok env hok centos_installed_pkgs
      (addEvent s (.enterStage "install_centos_packages"))
    obtain ⟨ds, hd, _, _⟩ := install_pkgs_loop_shape env centos_installed_pkgs
      (addEvent s (.enterStage "install_centos_packages"))
    rw [hr] at hd
    simp only [StepResult.state, addEvent_trace] at hd
    refine ⟨markStage s1 "install_centos_packages",
      by simp [install_centos_packages, h', hr], fun _ => ?_⟩
    simp [hd]

theorem update_progress (env : Env) (hok : env.yumUpdateOk = true) (s : RState) :
    ∃ s', update_the_system env s = .ok s' ∧
      (get_stage_status s.doc "update_the_system" = false →
        Event.enterStage "update_the_system" ∈ s'.trace) := by
  by_cases h : get_stage_status s.doc "update_the_system"
  · exact ⟨s, by simp [update_the_system, h], by simp [h]⟩
  · have h' : get_stage_status s.doc "update_the_system" = false := by simpa using h
    exact ⟨markStage (addEvent (addEvent s (.enterStage "update_the_system"))
      (.act .yumUpdate)) "update_the_system",
      by simp [update_the_system, h', hok], fun _ => by simp [addEvent]⟩

theorem sync_progress (env : Env) (hok : env.distroSyncOk = true) (s : RState) :
    ∃ s', synchronization_of_distribution env s = .ok s' ∧
      (get_stage_status s.doc "synchronization_of_distribution" = false →
        Event.enterStage "synchronization_of_distribution" ∈ s'.trace) := by
  by_cases h : get_stage_status s.doc "synchronization_of_distribution"
  · exact ⟨s, by simp [synchronization_of_distribution, h], by simp [h]⟩
  · have h' : get_stage_status s.doc "synchronization_of_distribution" = false := by
      simpa using h
    exact ⟨markStage (addEvent (addEvent s (.enterStage "synchronization_of_distribution"))
      (.act .distroSync)) "synchronization_of_distribution",
      by simp [synchronization_of_distribution, h', hok], fun _ => by simp [addEvent]⟩

theorem recreate_grub_progress (env : Env) (p : String)
    (hok : env.grubMkconfigOk p = true) (s : RState) :
    ∃ s', recreate_grub_config env p s = .ok s' ∧
      (get_stage_status s.doc "recreate_grub_config" = false →
        Event.enterStage "recreate_grub_config" ∈ s'.trace ∧
        Event.act (.grubMkconfig p) ∈ s'.trace) := by
  by_cases h : get_stage_status s.doc "recreate_grub_config"
  · exact ⟨s, by simp [recreate_grub_config, h], by simp [h]⟩
  · have h' : get_stage_status s.doc "recreate_grub_config" = false := by simpa using h
    exact ⟨markStage (addEvent (addEvent s (.enterStage "recreate_grub_config"))
      (.act (.grubMkconfig p))) "recreate_grub_config",
      by simp [recreate_grub_config, h', hok],
      fun _ => ⟨by simp [addEvent], by simp [addEvent]⟩⟩

theorem reinstall_progress (env : Env) (hqa : env.rpmQaOk = true)
    (hk : env.defaultKernelOk = true) (hok : ∀ p, env.yumReinstallOk p = true)
    (s : RState) :
    ∃ s', reinstall_secure_boot_related_packages env s = .ok s' ∧
      (get_stage_status s.doc "reinstall_secure_boot_related_packages" = false →
        Event.enterStage "reinstall_secure_boot_related_packages" ∈ s'.trace) := by
  by_cases h : get_stage_status s.doc "reinstall_secure_boot_related_packages"
  · exact ⟨s, by simp [reinstall_secure_boot_related_packages, h], by simp [h]⟩
  · have h' : get_stage_status s.doc "reinstall_secure_boot_related_packages" = false := by
      simpa using h
    obtain ⟨s1, hr⟩ := reinstall_pkgs_loop_ok env hok
      (dict_update (collect_sb_pkgs env.rpmQa [])
        [(env.defaultKernelPkg, env.defaultKernelVendor.toLower)])
      (addEvent s (.enterStage "reinstall_secure_boot_related_packages"))
    obtain ⟨ds, hd, _, _⟩ := reinstall_pkgs_loop_shape env
      (dict_update (collect_sb_pkgs env.rpmQa [])
        [(env.defaultKernelPkg, env.defaultKernelVendor.toLower)])
      (addEvent s (.enterStage "reinstall_secure_boot_related_packages"))
    rw [hr] at hd
    simp only [StepResult.state, addEvent_trace] at hd
    refine ⟨markStage s1 "reinstall_secure_boot_related_packages",
      by simp [reinstall_secure_boot_related_packages, get_pkgs_related_to_secure_boot,
        get_kernel_pkg_name_for_default_boot_record, h', hqa, hk, hr], fun _ => ?_⟩
    simp [hd]

theorem efiboot_progress (env : Env) (hok : env.efibootmgrOk = true) (s : RState) :
    ∃ s', add_boot_record_by_efibootmgr env s = .ok s' ∧
      (get_stage_status s.doc "add_boot_record_by_efibootmgr" = false →
        Event.enterStage "add_boot_record_by_efibootmgr" ∈ s'.trace) := by
  by_cases h : get_stage_status s.doc "add_boot_record_by_efibootmgr"
  · exact ⟨s, by simp [add_boot_record_by_efibootmgr, h], by simp [h]⟩
  · have h' : get_stage_status s.doc "add_boot_record_by_efibootmgr" = false := by
      simpa using h
    exact ⟨markStage (addEvent (addEvent s (.enterStage "add_boot_record_by_efibootmgr"))
      (.act .efibootmgrAdd)) "add_boot_record_by_efibootmgr",
      by simp [add_boot_record_by_efibootmgr, h', hok], fun _ => by simp [addEvent]⟩

theorem default_grub_progress (env : Env) (hok : env.grubbySetDefaultOk = true)
    (s : RState) :
    ∃ s', check_and_set_default_grub_record env s = .ok s' ∧
      (get_stage_status s.doc "check_and_set_default_grub_record" = false →
        Event.enterStage "check_and_set_default_grub_record" ∈ s'.trace) := by
  by_cases h : get_stage_status s.doc "check_and_set_default_grub_record"
  · exact ⟨s, by simp [check_and_set_default_grub_record, h], by simp [h]⟩
  · have h' : get_stage_status s.doc "check_and_set_default_grub_record" = false := by
      simpa using h
    by_cases hi : env.grubbyInfoDefaultOk
    · exact ⟨markStage (addEvent s (.enterStage "check_and_set_default_grub_record"))
        "check_and_set_default_grub_record",
        by simp [check_and_set_default_grub_record, h', hi], fun _ => by simp [addEvent]⟩
    · exact ⟨markStage (addEvent (addEvent s (.enterStage "check_and_set_default_grub_record"))
        (.act .grubbySetDefault)) "check_and_set_default_grub_record",
        by simp [check_and_set_default_grub_record, h', hi, hok],
        fun _ => by simp [addEvent]⟩

theorem remove_redhat_fail (env : Env) (s : RState)
    (h : get_stage_status s.doc "remove_redhat_packages" = false)
    (hf : ∃ p ∈ redhat_removed_pkgs, env.installed p = true ∧ env.rpmEraseOk p = false) :
    ∃ s', remove_redhat_packages env s = .exit 1 s' ∧ s'.doc = s.doc := by
  obtain ⟨s', h1, h2⟩ := erase_pkgs_loop_fail env redhat_removed_pkgs
    (addEvent s (.enterStage "remove_redhat_packages")) hf
  exact ⟨s', by simp [remove_redhat_packages, h, h1], by simpa using h2⟩

theorem remove_katello_fail (env : Env) (s : RState)
    (h : get_stage_status s.doc "remove_katello_satellite_packages" = false)
    (hf : ∃ p ∈ katello_removed_pkgs, env.installed p = true ∧ env.rpmEraseOk p = false) :
    ∃ s', remove_katello_satellite_packages env s = .exit 1 s' ∧ s'.doc = s.doc := by
  obtain ⟨s', h1, h2⟩ := erase_pkgs_loop_fail env katello_removed_pkgs
    (addEvent s (.enterStage "remove_katello_satellite_packages")) hf
  exact ⟨s', by simp [remove_katello_satellite_packages, h, h1], by simpa using h2⟩

theorem install_centos_fail (env : Env) (s : RState)
    (h : get_stage_status s.doc "install_centos_packages" = false)
    (hf : ∃ pr ∈ centos_installed_pkgs, env.yumLocalinstallOk pr.2 = false) :
    ∃ s', install_centos_packages env s = .exit 1 s' ∧ s'.doc = s.doc := by
  obtain ⟨s', h1, h2⟩ := install_pkgs_loop_fail env centos_installed_pkgs
    (addEvent s (.enterStage "install_centos_packages")) hf
  exact ⟨s', by simp [install_centos_packages, h, h1], by simpa using h2⟩

theorem update_fail (env : Env) (s : RState)
    (h : get_stage_status s.doc "update_the_system" = false)
    (hf : env.yumUpdateOk = false) :
    ∃ s', update_the_system env s = .exit 1 s' ∧ s'.doc = s.doc :=
  ⟨addEvent (addEvent s (.enterStage "update_the_system")) (.act .yumUpdate),
    by simp [update_the_system, h, hf], by simp⟩

theorem sync_fail (env : Env) (s : RState)
    (h : get_stage_status s.doc "synchronization_of_distribution" = false)
    (hf : env.distroSyncOk = false) :
    ∃ s', synchronization_of_distribution env s = .exit 1 s' ∧ s'.doc = s.doc :=
  ⟨addEvent (addEvent s (.enterStage "synchronization_of_distribution")) (.act .distroSync),
    by simp [synchronization_of_distribution, h, hf], by simp⟩

theorem recreate_grub_fail (env : Env) (p : String) (s : RState)
    (h : get_stage_status s.doc "recreate_grub_config" = false)
    (hf : env.grubMkconfigOk p = false) :
    ∃ s', recreate_grub_config env p s = .exit 1 s' ∧ s'.doc = s.doc :=
  ⟨addEvent (addEvent s (.enterStage "recreate_grub_config")) (.act (.grubMkconfig p)),
    by simp [recreate_grub_config, h, hf], by simp⟩

theorem reinstall_fail (env : Env) (s : RState)
    (h : get_stage_status s.doc "reinstall_secure_boot_related_packages" = false)
    (hf : env.rpmQaOk = false ∨ (env.rpmQaOk = true ∧ env.defaultKernelOk = false) ∨
      (env.rpmQaOk = true ∧ env.defaultKernelOk = true ∧
        ∃ pv ∈ dict_update (collect_sb_pkgs env.rpmQa [])
          [(env.defaultKernelPkg, env.defaultKernelVendor.toLower)],
          pv.2 ≠ "centos" ∧ env.yumReinstallOk pv.1 = false)) :
    ∃ s', reinstall_secure_boot_related_packages env s = .exit 1 s' ∧ s'.doc = s.doc := by
  rcases hf with hqa | ⟨hqa, hk⟩ | ⟨hqa, hk, hloop⟩
  · exact ⟨addEvent s (.enterStage "reinstall_secure_boot_related_packages"),
      by simp [reinstall_secure_boot_related_packages, get_pkgs_related_to_secure_boot,
        h, hqa], by simp⟩
  · exact ⟨addEvent s (.enterStage "reinstall_secure_boot_related_packages"),
      by simp [reinstall_secure_boot_related_packages, get_pkgs_related_to_secure_boot,
        get_kernel_pkg_name_for_default_boot_record, h, hqa, hk], by simp⟩
  · obtain ⟨s', h1, h2⟩ := reinstall_pkgs_loop_fail env
      (dict_update (collect_sb_pkgs env.rpmQa [])
        [(env.defaultKernelPkg, env.defaultKernelVendor.toLower)])
      (addEvent s (.enterStage "reinstall_secure_boot_related_packages")) hloop
    exact ⟨s', by simp [reinstall_secure_boot_related_packages,
      get_pkgs_related_to_secure_boot, get_kernel_pkg_name_for_default_boot_record,
      h, hqa, hk, h1], by simpa using h2⟩

theorem efiboot_fail (env : Env) (s : RState)
    (h : get_stage_status s.doc "add_boot_record_by_efibootmgr" = false)
    (hf : env.efibootmgrOk = false) :
    ∃ s', add_boot_record_by_efibootmgr env s = .exit 1 s' ∧ s'.doc = s.doc :=
  ⟨addEvent (addEvent s (.enterStage "add_boot_record_by_efibootmgr")) (.act .efibootmgrAdd),
    by simp [add_boot_record_by_efibootmgr, h, hf], by simp⟩

theorem default_grub_fail (env : Env) (s : RState)
    (h : get_stage_status s.doc "check_and_set_default_grub_record" = false)
    (hf : env.grubbyInfoDefaultOk = false ∧ env.grubbySetDefaultOk = false) :
    ∃ s', check_and_set_default_grub_record env s = .exit 1 s' ∧ s'.doc = s.doc :=
  ⟨addEvent (addEvent s (.enterStage "check_and_set_default_grub_record"))
    (.act .grubbySetDefault),
    by simp [check_and_set_default_grub_record, h, hf.1, hf.2], by simp⟩

/-! ## Assembling the pipeline facts -/

theorem pipeline_ff (env : Env) (hk : is_katello_satelite env = false)
    (he : is_efi_system env = false) :
    pipeline env = [checkOsStage, rmRedhatStage, rmDirsStage, installStage, updateStage,
      syncStage, grubLegacyStage, defaultGrubStage] := by
  simp [pipeline, hk, he]

theorem pipeline_ft (env : Env) (hk : is_katello_satelite env = false)
    (he : is_efi_system env = true) :
    pipeline env = [checkOsStage, rmRedhatStage, rmDirsStage, installStage, updateStage,
      syncStage, grubEfiStage, reinstallStage, efibootStage, defaultGrubStage] := by
  simp [pipeline, hk, he]

theorem pipeline_tf (env : Env) (hk : is_katello_satelite env = true)
    (he : is_efi_system env = false) :
    pipeline env = [checkOsStage, rmRedhatStage, rmDirsStage, katelloStage, installStage,
      updateStage, syncStage, grubLegacyStage, defaultGrubStage] := by
  simp [pipeline, hk, he]

theorem pipeline_tt (env : Env) (hk : is_katello_satelite env = true)
    (he : is_efi_system env = true) :
    pipeline env = [checkOsStage, rmRedhatStage, rmDirsStage, katelloStage, installStage,
      updateStage, syncStage, grubEfiStage, reinstallStage, efibootStage,
      defaultGrubStage] := by
  simp [pipeline, hk, he]

/-- No two stages of one run share a status key. -/
theorem pipeline_names_nodup (env : Env) : ((pipeline env).map StageDef.name).Nodup := by
  cases hk : is_katello_satelite env <;> cases he : is_efi_system env
  · rw [pipeline_ff env hk he]; decide
  · rw [pipeline_ft env hk he]; decide
  · rw [pipeline_tf env hk he]; decide
  · rw [pipeline_tt env hk he]; decide

/-- Progress of any stage from its own command-success facts, with the
stage's guaranteed events when its key was `false`. -/
theorem stageOpsOk_progress (env : Env) :
    ∀ st ∈ allStages, stageOpsOk env st.name → ∀ s : RState,
    ∃ s', st.run env s = .ok s' ∧
      (get_stage_status s.doc st.name = false →
        ∀ e ∈ (Event.enterStage st.name :: st.keyEvents), e ∈ s'.trace) := by
  intro st hst hop s
  simp only [allStages, List.mem_cons, List.not_mem_nil, or_false] at hst
  rcases hst with rfl | rfl | rfl | rfl | rfl | rfl | rfl | rfl | rfl | rfl | rfl | rfl
  · obtain ⟨m, hos⟩ := (hop :
      ∃ m, get_os_version_and_name env.osName env.osVersion = some (7, m, "redhat"))
    obtain ⟨s', h1, h2⟩ := check_supported_os_progress env m hos s
    refine ⟨s', h1, fun hg e he => ?_⟩
    simp only [checkOsStage, List.mem_cons, List.not_mem_nil, or_false] at he
    subst he
    exact h2 hg
  · obtain ⟨s', h1, h2⟩ := remove_redhat_progress env hop s
    refine ⟨s', h1, fun hg e he => ?_⟩
    simp only [rmRedhatStage, List.mem_cons, List.not_mem_nil, or_false] at he
    subst he
    exact h2 hg
  · obtain ⟨s', h1, h2⟩ := remove_dirs_progress env s
    refine ⟨s', h1, fun hg e he => ?_⟩
    simp only [rmDirsStage, List.mem_cons, List.not_mem_nil, or_false] at he
    subst he
    exact h2 hg
  · obtain ⟨s', h1, h2⟩ := remove_katello_progress env hop s
    refine ⟨s', h1, fun hg e he => ?_⟩
    simp only [katelloStage, List.mem_cons, List.not_mem_nil, or_false] at he
    subst he
    exact h2 hg
  · obtain ⟨s', h1, h2⟩ := install_centos_progress env hop s
    refine ⟨s', h1, fun hg e he => ?_⟩
    simp only [installStage, List.mem_cons, List.not_mem_nil, or_false] at he
    subst he
    exact h2 hg
  · obtain ⟨s', h1, h2⟩ := update_progress env hop s
    refine ⟨s', h1, fun hg e he => ?_⟩
    simp only [updateStage, List.mem_cons, List.not_mem_nil, or_false] at he
    subst he
    exact h2 hg
  · obtain ⟨s', h1, h2⟩ := sync_progress env hop s
    refine ⟨s', h1, fun hg e he => ?_⟩
    simp only [syncStage, List.mem_cons, List.not_mem_nil, or_false] at he
    subst he
    exact h2 hg
  · obtain ⟨s', h1, h2⟩ := recreate_grub_progress env "/boot/efi/EFI/centos/grub.cfg"
      ((hop : ∀ p, env.grubMkconfigOk p = true) _) s
    refine ⟨s', h1, fun hg e he => ?_⟩
    simp only [grubEfiStage, List.mem_cons, List.not_mem_nil, or_false] at he
    rcases he with rfl | rfl
    · exact (h2 hg).1
    · exact (h2 hg).2
  · obtain ⟨s', h1, h2⟩ := recreate_grub_progress env "/boot/grub2/grub.cfg"
      ((hop : ∀ p, env.grubMkconfigOk p = true) _) s
    refine ⟨s', h1, fun hg e he => ?_⟩
    simp only [grubLegacyStage, List.mem_cons, List.not_mem_nil, or_false] at he
    rcases he with rfl | rfl
    · exact (h2 hg).1
    · exact (h2 hg).2
  · obtain ⟨hqa, hk, hri⟩ := (hop : env.rpmQaOk = true ∧ env.defaultKernelOk = true ∧
      ∀ p, env.yumReinstallOk p = true)
    obtain ⟨s', h1, h2⟩ := reinstall_progress env hqa hk hri s
    refine ⟨s', h1, fun hg e he => ?_⟩
    simp only [reinstallStage, List.mem_cons, List.not_mem_nil, or_false] at he
    subst he
    exact h2 hg
  · obtain ⟨s', h1, h2⟩ := efiboot_progress env hop s
    refine ⟨s', h1, fun hg e he => ?_⟩
    simp only [efibootStage, List.mem_cons, List.not_mem_nil, or_false] at he
    subst he
    exact h2 hg
  · obtain ⟨s', h1, h2⟩ := default_grub_progress env hop s
    refine ⟨s', h1, fun hg e he => ?_⟩
    simp only [defaultGrubStage, List.mem_cons, List.not_mem_nil, or_false] at he
    subst he
    exact h2 hg

/-- `AllOk` grants every stage its command-success facts. -/
theorem allOk_stageOpsOk (env : Env) (hok : AllOk env) :
    ∀ st ∈ allStages, stageOpsOk env st.name := by
  intro st hst
  simp only [allStages, List.mem_cons, List.not_mem_nil, or_false] at hst
  rcases hst with rfl | rfl | rfl | rfl | rfl | rfl | rfl | rfl | rfl | rfl | rfl | rfl
  · exact hok.os
  · exact hok.erase
  · exact trivial
  · exact hok.erase
  · exact hok.localinstall
  · exact hok.yumUpdate
  · exact hok.distroSync
  · exact hok.grub
  · exact hok.grub
  · exact ⟨hok.rpmQa, hok.kernel, hok.reinstall⟩
  · exact hok.efiboot
  · exact hok.setDefault

/-- A stage of the run whose declared hard-failure condition holds exits 1
from any state where its key is `false`, leaving the document untouched. -/
theorem stage_fails (env : Env) :
    ∀ st ∈ pipeline env, opFails env st.name → ∀ s : RState,
    get_stage_status s.doc st.name = false →
    ∃ s', st.run env s = .exit 1 s' ∧ s'.doc = s.doc := by
  intro st hst hop s hguard
  have hsub := pipeline_sub_all env st hst
  simp only [allStages, List.mem_cons, List.not_mem_nil, or_false] at hsub
  rcases hsub with rfl | rfl | rfl | rfl | rfl | rfl | rfl | rfl | rfl | rfl | rfl | rfl
  · exact absurd (hop : False) (fun h => h)
  · exact remove_redhat_fail env s hguard hop
  · exact absurd (hop : False) (fun h => h)
  · exact remove_katello_fail env s hguard hop
  · exact install_centos_fail env s hguard hop
  · exact update_fail env s hguard hop
  · exact sync_fail env s hguard hop
  · -- grubEfiStage is in the pipeline only on an EFI system
    have he : is_efi_system env = true := by
      by_contra hne
      have he' : is_efi_system env = false := by simpa using hne
      have hkey : grubEfiStage.keyEvents = grubLegacyStage.keyEvents → False := by decide
      cases hk : is_katello_satelite env
      · rw [pipeline_ff env hk he'] at hst
        simp only [List.mem_cons, List.not_mem_nil, or_false] at hst
        rcases hst with h | h | h | h | h | h | h | h <;>
          first
            | (exact hkey (congrArg StageDef.keyEvents h))
            | (exact absurd (congrArg StageDef.keyEvents h) (by decide))
      · rw [pipeline_tf env hk he'] at hst
        simp only [List.mem_cons, List.not_mem_nil, or_false] at hst
        rcases hst with h | h | h | h | h | h | h | h | h <;>
          first
            | (exact hkey (congrArg StageDef.keyEvents h))
            | (exact absurd (congrArg StageDef.keyEvents h) (by decide))
    have hop2 : env.grubMkconfigOk (if is_efi_system env then "/boot/efi/EFI/centos/grub.cfg"
        else "/boot/grub2/grub.cfg") = false := hop
    rw [he] at hop2
    simp only [if_true] at hop2
    exact recreate_grub_fail env "/boot/efi/EFI/centos/grub.cfg" s hguard hop2
  · -- grubLegacyStage is in the pipeline only on a legacy system
    have he : is_efi_system env = false := by
      by_contra hne
      have he' : is_efi_system env = true := by simpa using hne
      cases hk : is_katello_satelite env
      · rw [pipeline_ft env hk he'] at hst
        simp only [List.mem_cons, List.not_mem_nil, or_false] at hst
        rcases hst with h | h | h | h | h | h | h | h | h | h <;>
          exact absurd (congrArg StageDef.keyEvents h) (by decide)
      · rw [pipeline_tt env hk he'] at hst
        simp only [List.mem_cons, List.not_mem_nil, or_false] at hst
        rcases hst with h | h | h | h | h | h | h | h | h | h | h <;>
          exact absurd (congrArg StageDef.keyEvents h) (by decide)
    have hop2 : env.grubMkconfigOk (if is_efi_system env then "/boot/efi/EFI/centos/grub.cfg"
        else "/boot/grub2/grub.cfg") = false := hop
    rw [he] at hop2
    simp only [Bool.false_eq_true, if_false] at hop2
    exact recreate_grub_fail env "/boot/grub2/grub.cfg" s hguard hop2
  · exact reinstall_fail env s hguard hop
  · exact efiboot_fail env s hguard hop
  · exact default_grub_fail env s hguard hop

/-- An event no pipeline stage may emit never enters the trace of a run of
`main`, whatever the outcome. -/
theorem main_no_event (env : Env) (s : RState) (e : Event)
    (hall : ∀ st ∈ pipeline env, ¬ EventAllowed st e) (h0 : e ∉ s.trace) :
    e ∉ (main env s).state.trace := by
  rw [main_eq_pipeline]
  by_cases hc : get_stage_status s.doc "completed"
  · have : is_conversion_completed s = .exit 0 s := by simp [is_conversion_completed, hc]
    rw [this]
    simpa using h0
  · have h1 : is_conversion_completed s = .ok s := by simp [is_conversion_completed, hc]
    rw [h1, StepResult.ok_bind]
    by_cases hu : env.geteuid = 0
    · have h2 : is_run_under_root env s = .ok s := by simp [is_run_under_root, hu]
      rw [h2, StepResult.ok_bind]
      obtain ⟨ds, hds, has⟩ := runStages_shape env (pipeline env) (pipeline_stageOK env) s
      have hnot : e ∉ ds := by
        intro hmem
        obtain ⟨st, hst, hea⟩ := has e hmem
        exact hall st hst hea
      cases hr : runStages env (pipeline env) s with
      | ok s3 =>
        rw [hr] at hds
        simp only [StepResult.state] at hds
        rw [StepResult.ok_bind]
        simp only [StepResult.state, markStage_trace]
        rw [hds]
        intro hmem
        rcases List.mem_append.mp hmem with hmem | hmem
        · exact h0 hmem
        · exact hnot hmem
      | exit c s3 =>
        rw [hr] at hds
        simp only [StepResult.state] at hds
        rw [StepResult.exit_bind]
        simp only [StepResult.state]
        rw [hds]
        intro hmem
        rcases List.mem_append.mp hmem with hmem | hmem
        · exact h0 hmem
        · exact hnot hmem
      | crash s3 =>
        rw [hr] at hds
        simp only [StepResult.state] at hds
        rw [StepResult.crash_bind]
        simp only [StepResult.state]
        rw [hds]
        intro hmem
        rcases List.mem_append.mp hmem with hmem | hmem
        · exact h0 hmem
        · exact hnot hmem
    · have h2 : is_run_under_root env s = .exit 0 s := by simp [is_run_under_root, hu]
      rw [h2, StepResult.exit_bind]
      simpa using h0

theorem lookupStage_not_mem (d : List (String × Bool)) (X : String)
    (h : ∀ p ∈ d, p.1 ≠ X) : lookupStage d X = false := by
  induction d with
  | nil => rfl
  | cons p rest ih =>
    obtain ⟨k, v⟩ := p
    have hk : k ≠ X := h (k, v) (List.mem_cons_self _ _)
    simp only [lookupStage, if_neg hk]
    exact ih fun q hq => h q (List.mem_cons_of_mem _ hq)

/-- No stage of a run is guarded by the overall `completed` key. -/
theorem pipeline_name_ne_completed (env : Env) :
    ∀ q ∈ pipeline env, "completed" ≠ q.name := by
  intro q hq
  have hsub := pipeline_sub_all env q hq
  simp only [allStages, List.mem_cons, List.not_mem_nil, or_false] at hsub
  rcases hsub with rfl | rfl | rfl | rfl | rfl | rfl | rfl | rfl | rfl | rfl | rfl | rfl <;>
    decide

/-- On a successful, supported run, every stage whose key was `false` is
entered with all its guaranteed events, and every stage whose key was
`true` is never entered. -/
theorem main_progress (env : Env) (s0 : RState) (htr : s0.trace = [])
    (hcompleted : get_stage_status s0.doc "completed" = false) (hok : AllOk env) :
    ∃ s', main env s0 = .ok s' ∧
      ∀ st ∈ pipeline env,
        (get_stage_status s0.doc st.name = true → Event.enterStage st.name ∉ s'.trace) ∧
        (get_stage_status s0.doc st.name = false →
          ∀ e ∈ (Event.enterStage st.name :: st.keyEvents), e ∈ s'.trace) := by
  rw [main_eq_pipeline]
  have h1 : is_conversion_completed s0 = .ok s0 := by
    simp [is_conversion_completed, hcompleted]
  have h2 : is_run_under_root env s0 = .ok s0 := by simp [is_run_under_root, hok.root]
  rw [h1, StepResult.ok_bind, h2, StepResult.ok_bind]
  have hprog := fun st hst => stageOpsOk_progress env st (pipeline_sub_all env st hst)
    (allOk_stageOpsOk env hok st (pipeline_sub_all env st hst))
  obtain ⟨s3, hr3, _, hmem⟩ := runStages_progress env
    (fun st => Event.enterStage st.name :: st.keyEvents) (pipeline env)
    (pipeline_stageOK env) (pipeline_names_nodup env) hprog s0
  rw [hr3, StepResult.ok_bind]
  refine ⟨markStage s3 "completed", rfl, ?_⟩
  intro st hst
  refine ⟨fun hkey => ?_, fun hkey e he => ?_⟩
  · have h := (runStages_key_true env (pipeline env) (pipeline_stageOK env) st.name s0 hkey
      (by rw [htr]; exact List.not_mem_nil _)).2
    rw [hr3] at h
    simpa using h
  · have := hmem st hst hkey e he
    simpa using this

/-- Claim C3: if the overall-completion key `completed` is `true` at entry,
`main` exits 0 at the very first check with the state completely
untouched: no privilege check, no OS probe, no stage body, no mutating
action (the returned state is the entry state itself). -/
theorem C3_idempotent_completed (env : Env) (s : RState)
    (h : get_stage_status s.doc "completed" = true) :
    main env s = .exit 0 s := by
  rw [main_eq_pipeline]
  have h1 : is_conversion_completed s = .exit 0 s := by simp [is_conversion_completed, h]
  rw [h1, StepResult.exit_bind]

/-- Claim C4: setting a stage's key and then reading it back yields `true`
for every prior document state (persistence round-trip through the
document); reading a key never written yields `false`, both when no
document exists and when the document lacks the key. -/
theorem C4_status_roundtrip :
    (∀ (doc : Option (List (String × Bool))) (X : String),
      get_stage_status (set_successful_stage_status doc X) X = true) ∧
    (∀ X : String, get_stage_status none X = false) ∧
    (∀ (d : List (String × Bool)) (X : String), (∀ p ∈ d, p.1 ≠ X) →
      get_stage_status (some d) X = false) := by
  refine ⟨fun doc X => get_set_same doc X, fun X => rfl, fun d X h => ?_⟩
  simpa [get_stage_status] using lookupStage_not_mem d X h

/-- Claim C8: `get_stage_status` is total (a Lean function into `Bool`, so
it never raises and never terminates the process) and returns `false` both
when the status document is absent and when the document exists but lacks
the key. -/
theorem C8_get_stage_status_total (doc : Option (List (String × Bool))) (X : String) :
    (doc = none → get_stage_status doc X = false) ∧
    (∀ d, doc = some d → (∀ p ∈ d, p.1 ≠ X) → get_stage_status doc X = false) := by
  constructor
  · rintro rfl
    rfl
  · rintro d rfl h
    simpa [get_stage_status] using lookupStage_not_mem d X h

/-- Claim C9: `recreate_grub_config` is guarded and marked under the
single key `recreate_grub_config` whatever path it is given: when the key
is `true` any call with any path and any environment returns at once with
the state untouched; after one successful run on path `p` the key is
`true`, so every later call — with the other branch's path included —
returns without invoking the generator. -/
theorem C9_grub_single_key (env : Env) (p : String) (s : RState)
    (hguard : get_stage_status s.doc "recreate_grub_config" = false)
    (hok : env.grubMkconfigOk p = true) :
    (∀ (env3 : Env) (p3 : String) (t : RState),
      get_stage_status t.doc "recreate_grub_config" = true →
      recreate_grub_config env3 p3 t = .ok t) ∧
    ∃ s', recreate_grub_config env p s = .ok s' ∧
      get_stage_status s'.doc "recreate_grub_config" = true ∧
      ∀ (env2 : Env) (p2 : String), recreate_grub_config env2 p2 s' = .ok s' := by
  refine ⟨fun env3 p3 t ht => by simp [recreate_grub_config, ht], ?_⟩
  refine ⟨markStage (addEvent (addEvent s (.enterStage "recreate_grub_config"))
    (.act (.grubMkconfig p))) "recreate_grub_config", ?_, ?_, ?_⟩
  · simp [recreate_grub_config, hguard, hok]
  · simp
  · intro env2 p2
    simp [recreate_grub_config]

/-- Claim C10: with a non-empty distribution name, the parser returns the
digit value of character 0 of the version string as the major version and
the digit value of character 2 as the minor version; a non-digit at either
position makes it fail (`none`, an uncaught `ValueError`).  Consequently a
two-digit minor such as `7.10` is misreported as minor `1`. -/
theorem C10_version_chars (nm ver : String) (c0 c2 : Char)
    (hnm : nm ≠ "")
    (h0 : ver.data[0]? = some c0) (h2 : ver.data[2]? = some c2) :
    ((c0.isDigit = true → c2.isDigit = true →
      get_os_version_and_name nm ver = some (c0.toNat - 48, c2.toNat - 48, nm)) ∧
     (c0.isDigit = false ∨ c2.isDigit = false →
      get_os_version_and_name nm ver = none)) ∧
    get_os_version_and_name "redhat" "7.10" = some (7, 1, "redhat") := by
  refine ⟨⟨fun hd0 hd2 => ?_, fun hd => ?_⟩, by decide⟩
  · simp [get_os_version_and_name, hnm, h0, h2, int_of_char, hd0, hd2]
  · rcases hd with hd | hd
    · simp [get_os_version_and_name, hnm, h0, h2, int_of_char, hd]
    · by_cases hd0 : c0.isDigit <;>
        simp [get_os_version_and_name, hnm, h0, h2, int_of_char, hd0, hd]

/-- Claim C1: on a run where every external command succeeds (and the host
is supported and the run not yet completed), every pipeline stage whose
status key is `true` at entry has its body skipped entirely — its
body-entry marker never appears in the trace — and every pipeline stage
whose key is `false` has its body entered.  The pipeline is the stage list
of this run's environment (the katello stage and the firmware branch are
selected by their probes). -/
theorem C1_resumability (env : Env) (s0 : RState) (htr : s0.trace = [])
    (hcompleted : get_stage_status s0.doc "completed" = false) (hok : AllOk env) :
    ∃ s', main env s0 = .ok s' ∧
      ∀ st ∈ pipeline env,
        (get_stage_status s0.doc st.name = true →
          Event.enterStage st.name ∉ s'.trace) ∧
        (get_stage_status s0.doc st.name = false →
          Event.enterStage st.name ∈ s'.trace) := by
  obtain ⟨s', h1, h2⟩ := main_progress env s0 htr hcompleted hok
  exact ⟨s', h1, fun st hst => ⟨(h2 st hst).1,
    fun hkey => (h2 st hst).2 hkey _ (List.mem_cons_self _ _)⟩⟩

/-- Claim C5, amended: the OS verification is itself a guarded stage under
the status key `check_supported_os`, so it runs only when that key is
`false`; in that case the OS identity is probed fresh and any mismatch of
major version or name exits 0 with the document untouched and no mutating
action performed (the final state adds only the body-entry marker and the
probe to the trace).  Once the check succeeds its key is persisted, so
later runs skip the probe (see the counterexample). -/
theorem C5_os_check_when_unguarded (env : Env) (s : RState) (maj mnv : Nat) (nm : String)
    (hguard : get_stage_status s.doc "check_supported_os" = false)
    (hcompleted : get_stage_status s.doc "completed" = false)
    (hroot : env.geteuid = 0)
    (hos : get_os_version_and_name env.osName env.osVersion = some (maj, mnv, nm))
    (hmis : maj ≠ 7 ∨ nm ≠ "redhat") :
    main env s =
      .exit 0 (addEvent (addEvent s (.enterStage "check_supported_os")) .probeOS) := by
  rw [main_eq_pipeline]
  have h1 : is_conversion_completed s = .ok s := by
    simp [is_conversion_completed, hcompleted]
  have h2 : is_run_under_root env s = .ok s := by simp [is_run_under_root, hroot]
  rw [h1, StepResult.ok_bind, h2, StepResult.ok_bind]
  have hcheck : check_supported_os env s =
      .exit 0 (addEvent (addEvent s (.enterStage "check_supported_os")) .probeOS) := by
    rcases hmis with hm | hn
    · simp [check_supported_os, hguard, hos, SUPPORTED_MAJOR_VERSION_OS, hm]
    · by_cases hm7 : maj = 7
      · simp [check_supported_os, hguard, hos, SUPPORTED_MAJOR_VERSION_OS,
          SUPPORTED_NAME_OS, hm7, hn]
      · simp [check_supported_os, hguard, hos, SUPPORTED_MAJOR_VERSION_OS, hm7]
  obtain ⟨rest, hp⟩ : ∃ rest, pipeline env = checkOsStage :: rest := by
    cases hk : is_katello_satelite env <;> cases he : is_efi_system env
    · exact ⟨_, pipeline_ff env hk he⟩
    · exact ⟨_, pipeline_ft env hk he⟩
    · exact ⟨_, pipeline_tf env hk he⟩
    · exact ⟨_, pipeline_tt env hk he⟩
  rw [hp]
  have hrun : runStages env (checkOsStage :: rest) s =
      .exit 0 (addEvent (addEvent s (.enterStage "check_supported_os")) .probeOS) := by
    simp only [runStages]
    rw [show checkOsStage.run env s = _ from hcheck, StepResult.exit_bind]
  rw [hrun, StepResult.exit_bind]

/-- Claim C6: the conflicting-agent probe is an AND across its two
package checks — `true` exactly when both `python-qpid-proton` and
`python2-qpid-proton` are installed — and when either is absent the
removal stage's body is never entered in any run of `main`, whatever the
rest of the environment does (the stage is not even in the run's
pipeline, so its guard is never consulted). -/
theorem C6_and_detection (env : Env) (s0 : RState)
    (h0 : Event.enterStage "remove_katello_satellite_packages" ∉ s0.trace) :
    (is_katello_satelite env = true ↔
      (env.installed "python-qpid-proton" = true ∧
       env.installed "python2-qpid-proton" = true)) ∧
    ((env.installed "python-qpid-proton" = false ∨
      env.installed "python2-qpid-proton" = false) →
      Event.enterStage "remove_katello_satellite_packages" ∉
        (main env s0).state.trace) := by
  constructor
  · simp [is_katello_satelite, Bool.and_eq_true]
  · intro hsub
    have hkat : is_katello_satelite env = false := by
      rcases hsub with h | h <;> simp [is_katello_satelite, h]
    refine main_no_event env s0 _ ?_ h0
    intro st hst hea
    rcases hea with hname | hp | ⟨a, ha, _⟩
    · injection hname with hname
      cases he : is_efi_system env
      · rw [pipeline_ff env hkat he] at hst
        simp only [List.mem_cons, List.not_mem_nil, or_false] at hst
        rcases hst with rfl | rfl | rfl | rfl | rfl | rfl | rfl | rfl <;>
          exact absurd hname (by decide)
      · rw [pipeline_ft env hkat he] at hst
        simp only [List.mem_cons, List.not_mem_nil, or_false] at hst
        rcases hst with rfl | rfl | rfl | rfl | rfl | rfl | rfl | rfl | rfl | rfl <;>
          exact absurd hname (by decide)
    · exact Event.noConfusion hp
    · exact Event.noConfusion ha

/-- Claim C7: exactly one boot-configuration branch is exercised per run.
On an EFI system the legacy-path config regeneration never happens; on a
legacy system no EFI-branch operation happens (no EFI-path config
regeneration, no secure-boot reinstall, no EFI boot-entry registration —
their stage bodies are never entered).  Moreover, on a successful
supported run with the grub stage still pending, the branch selected by
the probe does regenerate the config at its own path. -/
theorem C7_branch_exclusive (env : Env) (s0 : RState) (htr : s0.trace = []) :
    ((is_efi_system env = true →
       Event.act (Action.grubMkconfig "/boot/grub2/grub.cfg") ∉
         (main env s0).state.trace) ∧
     (is_efi_system env = false →
       Event.act (Action.grubMkconfig "/boot/efi/EFI/centos/grub.cfg") ∉
         (main env s0).state.trace ∧
       Event.act Action.efibootmgrAdd ∉ (main env s0).state.trace ∧
       (∀ p, Event.act (Action.yumReinstall p) ∉ (main env s0).state.trace) ∧
       Event.enterStage "reinstall_secure_boot_related_packages" ∉
         (main env s0).state.trace ∧
       Event.enterStage "add_boot_record_by_efibootmgr" ∉ (main env s0).state.trace)) ∧
    (AllOk env → get_stage_status s0.doc "completed" = false →
     get_stage_status s0.doc "recreate_grub_config" = false →
     (is_efi_system env = true →
       Event.act (Action.grubMkconfig "/boot/efi/EFI/centos/grub.cfg") ∈
         (main env s0).state.trace) ∧
     (is_efi_system env = false →
       Event.act (Action.grubMkconfig "/boot/grub2/grub.cfg") ∈
         (main env s0).state.trace)) := by
  have h0 : ∀ e : Event, e ∉ s0.trace := by
    intro e
    rw [htr]
    exact List.not_mem_nil e
  constructor
  · constructor
    · intro he
      refine main_no_event env s0 _ ?_ (h0 _)
      intro st hst hea
      cases hk : is_katello_satelite env
      · rw [pipeline_ft env hk he] at hst
        simp only [List.mem_cons, List.not_mem_nil, or_false] at hst
        rcases hst with rfl | rfl | rfl | rfl | rfl | rfl | rfl | rfl | rfl | rfl <;>
          simp only [EventAllowed, checkOsStage, rmRedhatStage, rmDirsStage, katelloStage,
            installStage, updateStage, syncStage, grubEfiStage, grubLegacyStage,
            reinstallStage, efibootStage, defaultGrubStage, redhat_removed_pkgs,
            katello_removed_pkgs, not_needed_dirs, centos_installed_pkgs] at hea <;>
          simp at hea
      · rw [pipeline_tt env hk he] at hst
        simp only [List.mem_cons, List.not_mem_nil, or_false] at hst
        rcases hst with rfl | rfl | rfl | rfl | rfl | rfl | rfl | rfl | rfl | rfl | rfl <;>
          simp only [EventAllowed, checkOsStage, rmRedhatStage, rmDirsStage, katelloStage,
            installStage, updateStage, syncStage, grubEfiStage, grubLegacyStage,
            reinstallStage, efibootStage, defaultGrubStage, redhat_removed_pkgs,
            katello_removed_pkgs, not_needed_dirs, centos_installed_pkgs] at hea <;>
          simp at hea
    · intro he
      have hall : ∀ e0 : Event,
          (∀ st ∈ pipeline env, ¬ EventAllowed st e0) →
          e0 ∉ (main env s0).state.trace :=
        fun e0 hargs => main_no_event env s0 e0 hargs (h0 _)
      have hstages : ∀ st ∈ pipeline env,
          st ∈ [checkOsStage, rmRedhatStage, rmDirsStage, katelloStage, installStage,
            updateStage, syncStage, grubLegacyStage, defaultGrubStage] := by
        intro st hst
        cases hk : is_katello_satelite env
        · rw [pipeline_ff env hk he] at hst
          simp only [List.mem_cons, List.not_mem_nil, or_false] at hst ⊢
          tauto
        · rw [pipeline_tf env hk he] at hst
          simp only [List.mem_cons, List.not_mem_nil, or_false] at hst ⊢
          tauto
      refine ⟨hall _ ?_, hall _ ?_, fun p => hall _ ?_, hall _ ?_, hall _ ?_⟩ <;>
        (intro st hst hea
         have hst9 := hstages st hst
         simp only [List.mem_cons, List.not_mem_nil, or_false] at hst9
         rcases hst9 with rfl | rfl | rfl | rfl | rfl | rfl | rfl | rfl | rfl <;>
           simp only [EventAllowed, checkOsStage, rmRedhatStage, rmDirsStage, katelloStage,
             installStage, updateStage, syncStage, grubLegacyStage, defaultGrubStage,
             redhat_removed_pkgs, katello_removed_pkgs, not_needed_dirs,
             centos_installed_pkgs] at hea <;>
           simp at hea)
  · intro hok hcompleted hgr
    obtain ⟨s', h1, h2⟩ := main_progress env s0 htr hcompleted hok
    rw [h1]
    constructor
    · intro he
      have hmem : grubEfiStage ∈ pipeline env := by
        cases hk : is_katello_satelite env
        · rw [pipeline_ft env hk he]; simp
        · rw [pipeline_tt env hk he]; simp
      have := (h2 grubEfiStage hmem).2 hgr
        (Event.act (.grubMkconfig "/boot/efi/EFI/centos/grub.cfg"))
        (by simp [grubEfiStage])
      simpa using this
    · intro he
      have hmem : grubLegacyStage ∈ pipeline env := by
        cases hk : is_katello_satelite env
        · rw [pipeline_ff env hk he]; simp
        · rw [pipeline_tf env hk he]; simp
      have := (h2 grubLegacyStage hmem).2 hgr
        (Event.act (.grubMkconfig "/boot/grub2/grub.cfg"))
        (by simp [grubLegacyStage])
      simpa using this

/-- Claim C2: whatever the split of the run's pipeline around a stage
`st`, if a mutating command of `st`'s body hard-fails (its declared
failure condition `opFails`), the stages before it have working commands,
and `st`'s key is still `false`, then the whole run exits with code 1,
`st`'s completion key is still `false` in the final document, the overall
`completed` key is still `false`, and no stage after `st` has its body
entered. -/
theorem C2_fail_fast (env : Env) (s0 : RState) (pre post : List StageDef) (st : StageDef)
    (hsplit : pipeline env = pre ++ st :: post)
    (htr : s0.trace = [])
    (hcompleted : get_stage_status s0.doc "completed" = false)
    (hroot : env.geteuid = 0)
    (hguard : get_stage_status s0.doc st.name = false)
    (hfail : opFails env st.name)
    (hpreOk : ∀ q ∈ pre, stageOpsOk env q.name) :
    ∃ s', main env s0 = .exit 1 s' ∧
      get_stage_status s'.doc st.name = false ∧
      get_stage_status s'.doc "completed" = false ∧
      ∀ q ∈ post, Event.enterStage q.name ∉ s'.trace := by
  rw [main_eq_pipeline]
  have h1 : is_conversion_completed s0 = .ok s0 := by
    simp [is_conversion_completed, hcompleted]
  have h2 : is_run_under_root env s0 = .ok s0 := by simp [is_run_under_root, hroot]
  rw [h1, StepResult.ok_bind, h2, StepResult.ok_bind]
  have hok' : ∀ q ∈ pre ++ st :: post, StageOK q := fun q hq =>
    pipeline_stageOK env q (by rw [hsplit]; exact hq)
  have hnd : ((pre ++ st :: post).map StageDef.name).Nodup := by
    have := pipeline_names_nodup env
    rwa [hsplit] at this
  have hpre : ∀ q ∈ pre, ∀ s, ∃ s', q.run env s = .ok s' := by
    intro q hq s
    have hqp : q ∈ pipeline env := by rw [hsplit]; exact List.mem_append_left _ hq
    obtain ⟨s', h, _⟩ := stageOpsOk_progress env q (pipeline_sub_all env q hqp)
      (hpreOk q hq) s
    exact ⟨s', h⟩
  have hstp : st ∈ pipeline env := by
    rw [hsplit]
    exact List.mem_append_right _ (List.mem_cons_self _ _)
  have hfail' : ∀ s, get_stage_status s.doc st.name = false →
      ∃ s', st.run env s = .exit 1 s' ∧ s'.doc = s.doc :=
    fun s hg => stage_fails env st hstp hfail s hg
  obtain ⟨s', hrun, hg', hpres, hpost'⟩ := runStages_fail env pre st post hok' hnd hpre
    hfail' s0 hguard (fun q _ => by rw [htr]; exact List.not_mem_nil _)
  rw [hsplit, hrun, StepResult.exit_bind]
  refine ⟨s', rfl, hg', ?_, hpost'⟩
  have hcomp : get_stage_status s'.doc "completed" = get_stage_status s0.doc "completed" := by
    apply hpres
    intro q hq
    exact pipeline_name_ne_completed env q (by rw [hsplit]; exact hq)
  rw [hcomp]
  exact hcompleted

theorem okEnv_allOk : AllOk okEnv :=
  ⟨rfl, ⟨9, by decide⟩, fun _ => rfl, fun _ => rfl, rfl, rfl, fun _ => rfl, rfl, rfl,
    fun _ => rfl, rfl, rfl⟩

/-- Claim C5, counterexample: on a resumed run whose status document
already has `check_supported_os = true`, with the platform reporting the
unsupported name `centos`, `main` passes the completion and privilege
checks but never probes the OS identity and never exits at the
verification: it runs to completion and performs mutating actions (here
`yum update`).  The OS verification is therefore cached across runs,
contrary to the claim. -/
theorem C5_os_check_cached_counterexample :
    (main envOsMismatch stateOsChecked).isOk = true ∧
    Event.probeOS ∉ (main envOsMismatch stateOsChecked).state.trace ∧
    Event.act Action.yumUpdate ∈ (main envOsMismatch stateOsChecked).state.trace := by
  decide

/-- Witness for C1: a concrete run with the `remove_redhat_packages` key
already `true` and everything else pending. -/
theorem C1_resumability_witness :
    AllOk okEnv ∧ stateRmRedhatDone.trace = [] ∧
    get_stage_status stateRmRedhatDone.doc "completed" = false ∧
    ∃ s', main okEnv stateRmRedhatDone = .ok s' ∧
      ∀ st ∈ pipeline okEnv,
        (get_stage_status stateRmRedhatDone.doc st.name = true →
          Event.enterStage st.name ∉ s'.trace) ∧
        (get_stage_status stateRmRedhatDone.doc st.name = false →
          Event.enterStage st.name ∈ s'.trace) :=
  ⟨okEnv_allOk, rfl, by decide,
    C1_resumability okEnv stateRmRedhatDone rfl (by decide) okEnv_allOk⟩

/-- Witness for C2: `yum update` hard-fails on a fresh host; the split of
the pipeline puts `update_the_system` after the four stages that have run
and before the three that must not. -/
theorem C2_fail_fast_witness :
    opFails envUpdateFails "update_the_system" ∧
    ∃ s', main envUpdateFails emptyState = .exit 1 s' ∧
      get_stage_status s'.doc "update_the_system" = false ∧
      get_stage_status s'.doc "completed" = false ∧
      ∀ q ∈ [syncStage, grubLegacyStage, defaultGrubStage],
        Event.enterStage q.name ∉ s'.trace :=
  ⟨rfl, C2_fail_fast envUpdateFails emptyState
    [checkOsStage, rmRedhatStage, rmDirsStage, installStage]
    [syncStage, grubLegacyStage, defaultGrubStage] updateStage
    (by rw [pipeline_ff envUpdateFails rfl rfl]; rfl) rfl rfl rfl rfl rfl
    (by intro q hq
        simp only [List.mem_cons, List.not_mem_nil, or_false] at hq
        rcases hq with rfl | rfl | rfl | rfl
        · exact ⟨9, by decide⟩
        · exact fun p => rfl
        · exact trivial
        · exact fun u => rfl)⟩

/-- Witness for C3: a second invocation on a fully migrated host. -/
theorem C3_idempotent_completed_witness :
    get_stage_status stateCompleted.doc "completed" = true ∧
    main okEnv stateCompleted = .exit 0 stateCompleted :=
  ⟨by decide, C3_idempotent_completed okEnv stateCompleted (by decide)⟩

/-- Witness for C4: write `update_the_system` into an absent document and
read it back; read never-written keys from both an absent document and one
holding a different key. -/
theorem C4_status_roundtrip_witness :
    get_stage_status (set_successful_stage_status none "update_the_system")
      "update_the_system" = true ∧
    get_stage_status none "update_the_system" = false ∧
    get_stage_status (some [("remove_redhat_packages", true)]) "update_the_system" = false :=
  ⟨C4_status_roundtrip.1 none "update_the_system",
   C4_status_roundtrip.2.1 "update_the_system",
   C4_status_roundtrip.2.2 [("remove_redhat_packages", true)] "update_the_system"
     (by decide)⟩

/-- Witness for the amended C5: first run on a Fedora 8.4 host — the OS is
probed and the run exits 0 having mutated nothing. -/
theorem C5_os_check_when_unguarded_witness :
    get_os_version_and_name envFedora.osName envFedora.osVersion =
      some (8, 4, "fedora") ∧
    main envFedora emptyState =
      .exit 0 (addEvent (addEvent emptyState (.enterStage "check_supported_os"))
        .probeOS) :=
  ⟨by decide, C5_os_check_when_unguarded envFedora emptyState 8 4 "fedora" rfl rfl rfl
    (by decide) (Or.inl (by decide))⟩

/-- Witness for C6 at a host with neither qpid-proton package installed. -/
theorem C6_and_detection_witness :
    (is_katello_satelite okEnv = true ↔
      (okEnv.installed "python-qpid-proton" = true ∧
       okEnv.installed "python2-qpid-proton" = true)) ∧
    ((okEnv.installed "python-qpid-proton" = false ∨
      okEnv.installed "python2-qpid-proton" = false) →
      Event.enterStage "remove_katello_satellite_packages" ∉
        (main okEnv emptyState).state.trace) :=
  C6_and_detection okEnv emptyState (by decide)

/-- Witness for C7 at a concrete legacy host. -/
theorem C7_branch_exclusive_witness :
    ((is_efi_system okEnv = true →
       Event.act (Action.grubMkconfig "/boot/grub2/grub.cfg") ∉
         (main okEnv emptyState).state.trace) ∧
     (is_efi_system okEnv = false →
       Event.act (Action.grubMkconfig "/boot/efi/EFI/centos/grub.cfg") ∉
         (main okEnv emptyState).state.trace ∧
       Event.act Action.efibootmgrAdd ∉ (main okEnv emptyState).state.trace ∧
       (∀ p, Event.act (Action.yumReinstall p) ∉ (main okEnv emptyState).state.trace) ∧
       Event.enterStage "reinstall_secure_boot_related_packages" ∉
         (main okEnv emptyState).state.trace ∧
       Event.enterStage "add_boot_record_by_efibootmgr" ∉
         (main okEnv emptyState).state.trace)) ∧
    (AllOk okEnv → get_stage_status emptyState.doc "completed" = false →
     get_stage_status emptyState.doc "recreate_grub_config" = false →
     (is_efi_system okEnv = true →
       Event.act (Action.grubMkconfig "/boot/efi/EFI/centos/grub.cfg") ∈
         (main okEnv emptyState).state.trace) ∧
     (is_efi_system okEnv = false →
       Event.act (Action.grubMkconfig "/boot/grub2/grub.cfg") ∈
         (main okEnv emptyState).state.trace)) :=
  C7_branch_exclusive okEnv emptyState rfl

/-- Witness for C8: an absent document and a document without the key. -/
theorem C8_get_stage_status_total_witness :
    get_stage_status none "update_the_system" = false ∧
    get_stage_status (some [("remove_redhat_packages", true)]) "update_the_system" = false :=
  ⟨(C8_get_stage_status_total none "update_the_system").1 rfl,
   (C8_get_stage_status_total (some [("remove_redhat_packages", true)])
     "update_the_system").2 [("remove_redhat_packages", true)] rfl (by decide)⟩

/-- Witness for C9: a successful legacy-path run, after which a second
call with the EFI path (or any other) is a no-op. -/
theorem C9_grub_single_key_witness :
    ∃ s', recreate_grub_config okEnv "/boot/grub2/grub.cfg" emptyState = .ok s' ∧
      get_stage_status s'.doc "recreate_grub_config" = true ∧
      ∀ (env2 : Env) (p2 : String), recreate_grub_config env2 p2 s' = .ok s' :=
  (C9_grub_single_key okEnv "/boot/grub2/grub.cfg" emptyState rfl rfl).2

/-- Witness for C10: `7.9` parses to `(7, 9)`; a non-digit at position 2
(`7.x`) makes the parser fail. -/
theorem C10_version_chars_witness :
    get_os_version_and_name "redhat" "7.9" = some (7, 9, "redhat") ∧
    get_os_version_and_name "redhat" "7.x" = none :=
  ⟨(C10_version_chars "redhat" "7.9" '7' '9' (by decide) rfl rfl).1.1 rfl rfl,
   (C10_version_chars "redhat" "7.x" '7' 'x' (by decide) rfl rfl).1.2
     (Or.inr rfl)⟩

end Migrate7
